import Mathlib

/-!
Verification of the chunked, resumable file-transfer engine of this repository
(`celestial_works`): the chunk planner (`AnalyzeFileAndCreateChunks`), the chunk
executor (`TransferChunk` / `VerifyChunk`), the task runner
(`ProcessTransferTask`), the merge and final verification
(`MergeChunks` / `VerifyFinalFile`), the facade operations
(`PauseTransfer` / `CancelTransfer` / `Shutdown` / getters) and the two SQLite
status stores (`TransferStatusDB`, `MediaStatusDB`).

The embedding is a shallow, sequential model:
  * file contents are lists of bytes (`List Nat`), the filesystem is an
    association list from path to content;
  * MD5 (computed by OpenSSL in the source) is an abstract parameter
    `md5 : List Nat → String` of every definition that hashes;
  * the concurrent observation of a pause request / of the shutdown flag at a
    chunk boundary is an oracle `Nat → Bool` indexed by the boundary number;
  * durable-store writes, sleeps, verification calls and callback invocations
    are recorded in an event trace, so temporal claims become statements about
    traces.
-/

/-! ## Filesystem model -/

/-- A file's content: its byte sequence. -/
abbrev Content := List Nat

/-- The filesystem: an association list from path to content. -/
abbrev FS := List (String × Content)

/-- Read a file: the content associated to the first matching path. -/
def fsRead (fs : FS) (p : String) : Option Content :=
  match fs with
  | [] => none
  | (q, d) :: rest => if q = p then some d else fsRead rest p

/-- Create or truncate-and-write a file (what opening an `std::ofstream` and
writing does). -/
def fsWrite (fs : FS) (p : String) (d : Content) : FS :=
  match fs with
  | [] => [(p, d)]
  | (q, e) :: rest => if q = p then (p, d) :: rest else (q, e) :: fsWrite rest p d

/-- Remove a file (`fs::remove`); removing a missing file is a no-op. -/
def fsRemove (fs : FS) (p : String) : FS :=
  match fs with
  | [] => []
  | (q, e) :: rest => if q = p then fsRemove rest p else (q, e) :: fsRemove rest p

theorem fsRead_fsWrite_self (fs : FS) (p : String) (d : Content) :
    fsRead (fsWrite fs p d) p = some d := by
  induction fs with
  | nil => simp [fsWrite, fsRead]
  | cons hd rest ih =>
    obtain ⟨q, e⟩ := hd
    by_cases h : q = p
    · simp [fsWrite, fsRead, h]
    · simp [fsWrite, fsRead, h, ih]

theorem fsRead_fsWrite_ne (fs : FS) (p r : String) (d : Content) (h : p ≠ r) :
    fsRead (fsWrite fs p d) r = fsRead fs r := by
  induction fs with
  | nil => simp [fsWrite, fsRead, h]
  | cons hd rest ih =>
    obtain ⟨q, e⟩ := hd
    by_cases hq : q = p
    · subst hq
      simp [fsWrite, fsRead, h]
    · simp [fsWrite, fsRead, hq, ih]

theorem fsRead_fsRemove (fs : FS) (p r : String) :
    fsRead (fsRemove fs p) r = if p = r then none else fsRead fs r := by
  induction fs with
  | nil => by_cases h : p = r <;> simp [fsRemove, fsRead, h]
  | cons hd rest ih =>
    obtain ⟨q, e⟩ := hd
    by_cases hq : q = p
    · subst hq
      by_cases h : q = r
      · simp [fsRemove, fsRead, h, ih] at *
        simpa [h] using ih
      · simp [fsRemove, fsRead, h, ih]
    · by_cases h : q = r
      · subst h
        have : ¬ p = q := fun hc => hq hc.symm
        simp [fsRemove, fsRead, hq, this]
      · simp [fsRemove, fsRead, hq, h, ih]

/-! ## Status enums and records (from `transfer_status_db.h` and
`chunk_transfer_manager.h`) -/

/-- Task status (`enum class TransferStatus`). -/
inductive TransferStatus
  | PENDING
  | DOWNLOADING
  | PAUSED
  | COMPLETED
  | FAILED
deriving DecidableEq, Repr

/-- Chunk status (`enum class ChunkStatus`). -/
inductive ChunkStatus
  | PENDING
  | DOWNLOADING
  | COMPLETED
  | FAILED
deriving DecidableEq, Repr

/-- The fields of `ExtendedChunkInfo` that the transfer pipeline reads or
writes (`chunk_id`, timestamps and the in-memory `task_id` back-pointer are
bookkeeping the claims never touch). -/
structure ExtendedChunkInfo where
  chunkIndex : Nat
  offset : Nat
  chunkSize : Nat
  actualSize : Nat
  md5Hash : String
  status : ChunkStatus
  retryCount : Nat
deriving DecidableEq, Repr

/-- The fields of the in-memory `TransferTaskInfo` the runner reads or writes
(callback function values are not stored; callback invocations are recorded
in the event trace instead). -/
structure TransferTaskInfo where
  taskId : String
  dbTaskId : Int
  sourcePath : String
  destPath : String
  fileSize : Nat
  fileChecksum : String
  status : TransferStatus
  chunks : List ExtendedChunkInfo
  transferredBytes : Nat
deriving DecidableEq, Repr

/-- Observable events of a task run, in program order: durable-store writes
(task status + heartbeat, chunk status), backoff sleeps (seconds),
verification calls with their result, progress notifications and the
completion callback. -/
inductive Ev
  | taskStatus (s : TransferStatus)
  | chunkStatus (idx : Nat) (s : ChunkStatus)
  | sleep (seconds : Nat)
  | verifyChunk (idx : Nat) (ok : Bool)
  | verifyFinal (ok : Bool)
  | progress (transferredBytes : Nat)
  | completion (success : Bool) (error : String)
deriving DecidableEq, Repr

/-- The temp artifact path `<dest_path>.chunk.<chunk_index>` (decimal, no
padding), as built in `TransferChunk`, `VerifyChunk`, `MergeChunks` and
`CleanupTempFiles`. -/
def tempChunkPath (destPath : String) (idx : Nat) : String :=
  destPath ++ ".chunk." ++ toString idx

theorem tempChunkPath_ne_dest (destPath : String) (idx : Nat) :
    tempChunkPath destPath idx ≠ destPath := by
  intro h
  have hlen := congrArg String.length h
  have h7 : (".chunk." : String).length = 7 := rfl
  simp [tempChunkPath, String.length_append, h7] at hlen
  omega

/-! ## Hasher (`CalculateFileChecksum` / `CalculateChunkChecksum`)

The source streams the file through OpenSSL MD5 with an 8 KiB buffer; the
digest function itself is external, so it is a parameter
`md5 : List Nat → String` here.  `CalculateChunkChecksum` seeks to `offset`
and hashes at most `size` bytes (a short file yields a digest of the bytes
that exist, because the read loop stops at EOF). -/

/-- MD5 of a whole file's content. -/
def CalculateFileChecksum (md5 : Content → String) (data : Content) : String :=
  md5 data

/-- MD5 of the byte range `[offset, offset + size)` of `data`, clipped to the
bytes that exist. -/
def CalculateChunkChecksum (md5 : Content → String) (data : Content)
    (offset size : Nat) : String :=
  md5 ((data.drop offset).take size)

/-! ## Chunk planner (`ChunkTransferManager::AnalyzeFileAndCreateChunks`)

The source is a `while (current_offset < file_size)` loop; each iteration
emits a chunk of `min(chunk_size_, file_size - current_offset)` bytes and
advances by that amount.  The loop is embedded with a fuel argument; when
`chunk_size > 0` a fuel of `file_size` is enough (each iteration advances the
offset by at least one byte).  With `chunk_size = 0` the source loop would
not terminate, so every statement about the planner assumes
`0 < chunk_size`. -/

def analyzeLoop (md5 : Content → String) (src : Content)
    (chunkSize fileSize : Nat) : Nat → Nat → Nat → List ExtendedChunkInfo
  | 0, _, _ => []
  | fuel + 1, offset, idx =>
    if offset < fileSize then
      let sz := min chunkSize (fileSize - offset)
      { chunkIndex := idx, offset := offset, chunkSize := sz, actualSize := sz,
        md5Hash := CalculateChunkChecksum md5 src offset sz,
        status := ChunkStatus.PENDING, retryCount := 0 }
        :: analyzeLoop md5 src chunkSize fileSize fuel (offset + sz) (idx + 1)
    else []

/-- The in-memory chunk plan of a task: the chunk list that
`AnalyzeFileAndCreateChunks` stores in `task.chunks`. -/
def AnalyzeFileAndCreateChunks (md5 : Content → String) (src : Content)
    (chunkSize fileSize : Nat) : List ExtendedChunkInfo :=
  analyzeLoop md5 src chunkSize fileSize fileSize 0 0

/-- Source `chunks[i].offset == sum(chunks[0..i-1].actual_size)` starting from `o`,
as a boolean predicate. -/
def contiguousFromB (o : Nat) : List ExtendedChunkInfo → Bool
  | [] => true
  | c :: rest => c.offset == o && contiguousFromB (o + c.actualSize) rest

/-! ## Status store: chunk rows (`TransferStatusDB::CreateChunks`,
`TransferStatusDB::UpdateChunkStatus`)

A chunk row of the `transfer_chunks` table, with the columns the claims are
about (the autoincrement `chunk_id` and the timestamp columns are omitted;
`status` defaults to `'PENDING'` and `md5_hash` to `''` in the schema). -/

structure ChunkRow where
  taskId : Int
  chunkIndex : Nat
  chunkSize : Nat
  offset : Nat
  status : ChunkStatus
  md5Hash : String
  retryCount : Nat
deriving DecidableEq, Repr

namespace TransferStatusDB

/-- The rows inserted by `TransferStatusDB::CreateChunks(task_id,
total_chunks, chunk_size)`: for `i = 0 .. total_chunks - 1` a row with the
uniform nominal `chunk_size`, `offset = i * chunk_size`, status `'PENDING'`
and the schema defaults for `md5_hash` and `retry_count`. -/
def CreateChunks (taskId : Int) (totalChunks : Nat) (chunkSize : Nat) :
    List ChunkRow :=
  (List.range totalChunks).map fun i =>
    { taskId := taskId, chunkIndex := i, chunkSize := chunkSize,
      offset := i * chunkSize, status := ChunkStatus.PENDING,
      md5Hash := "", retryCount := 0 }

/-- Source `total_chunks = (file_size + chunk_size - 1) / chunk_size`, as computed in
`TransferStatusDB::CreateTransferTask`. -/
def totalChunksOf (fileSize chunkSize : Nat) : Nat :=
  (fileSize + chunkSize - 1) / chunkSize

/-- The chunk rows persisted by `TransferStatusDB::CreateTransferTask`. -/
def CreateTransferTaskRows (taskId : Int) (fileSize chunkSize : Nat) :
    List ChunkRow :=
  CreateChunks taskId (totalChunksOf fileSize chunkSize) chunkSize

/-- Source `TransferStatusDB::UpdateChunkStatus(task_id, chunk_index, status,
md5_hash)`: the SQL `UPDATE transfer_chunks SET status = ?, md5_hash = ?,
updated_at = ? WHERE task_id = ? AND chunk_index = ?` — it sets both `status`
and `md5_hash` on every matching row, unconditionally. -/
def UpdateChunkStatus (rows : List ChunkRow) (taskId : Int) (chunkIndex : Nat)
    (status : ChunkStatus) (md5Hash : String) : List ChunkRow :=
  rows.map fun r =>
    if r.taskId = taskId ∧ r.chunkIndex = chunkIndex then
      { r with status := status, md5Hash := md5Hash }
    else r

end TransferStatusDB

namespace ChunkTransferManager

/-- Source `ChunkTransferManager::UpdateChunkStatus` forwards to the store without a
digest, so the store receives the C++ default argument `md5_hash = ""`. -/
def UpdateChunkStatusRows (rows : List ChunkRow) (dbTaskId : Int)
    (chunkIndex : Nat) (status : ChunkStatus) : List ChunkRow :=
  TransferStatusDB.UpdateChunkStatus rows dbTaskId chunkIndex status ""

end ChunkTransferManager

/-! ## Plan layout invariants (claim C2) -/

theorem ceilDiv_succ_step (cs r : Nat) (hcs : 0 < cs) (hr : 0 < r) :
    (r - min cs r + cs - 1) / cs + 1 = (r + cs - 1) / cs := by
  rcases le_or_lt cs r with h | h
  · have hmin : min cs r = cs := min_eq_left h
    have e1 : r - min cs r + cs - 1 = r - 1 := by omega
    have e2 : r + cs - 1 = r - 1 + cs := by omega
    rw [e1, e2, Nat.add_div_right _ hcs]
  · have hmin : min cs r = r := min_eq_right (le_of_lt h)
    have e1 : r - min cs r + cs - 1 = cs - 1 := by omega
    have e2 : r + cs - 1 = r - 1 + cs := by omega
    have h1 : (cs - 1) / cs = 0 := Nat.div_eq_of_lt (by omega)
    have h2 : (r - 1) / cs = 0 := Nat.div_eq_of_lt (by omega)
    rw [e1, e2, Nat.add_div_right _ hcs, h1, h2]

theorem analyzeLoop_spec (md5 : Content → String) (src : Content)
    (cs fileSize : Nat) (hcs : 0 < cs) :
    ∀ fuel offset idx, fileSize - offset ≤ fuel →
      (analyzeLoop md5 src cs fileSize fuel offset idx).length
          = (fileSize - offset + cs - 1) / cs
      ∧ contiguousFromB offset (analyzeLoop md5 src cs fileSize fuel offset idx)
          = true
      ∧ ((analyzeLoop md5 src cs fileSize fuel offset idx).map
            (fun c => c.actualSize)).sum = fileSize - offset
      ∧ (∀ c ∈ (analyzeLoop md5 src cs fileSize fuel offset idx).dropLast,
            c.actualSize = cs)
      ∧ (∀ c ∈ analyzeLoop md5 src cs fileSize fuel offset idx,
            0 < c.actualSize ∧ c.actualSize ≤ cs) := by
  intro fuel
  induction fuel with
  | zero =>
    intro offset idx h
    have h0 : fileSize - offset = 0 := by omega
    have hdiv : (fileSize - offset + cs - 1) / cs = 0 := by
      rw [h0]; exact Nat.div_eq_of_lt (by omega)
    refine ⟨?_, by simp [analyzeLoop, contiguousFromB], ?_, ?_, ?_⟩
    · simp [analyzeLoop, hdiv]
    · simp [analyzeLoop, h0]
    · simp [analyzeLoop]
    · simp [analyzeLoop]
  | succ fuel ih =>
    intro offset idx h
    by_cases hoff : offset < fileSize
    · have hr : 0 < fileSize - offset := by omega
      have hle : min cs (fileSize - offset) ≤ fileSize - offset := min_le_right _ _
      have hpos : 0 < min cs (fileSize - offset) := by
        have := lt_min hcs hr; omega
      have hfuel : fileSize - (offset + min cs (fileSize - offset)) ≤ fuel := by
        omega
      obtain ⟨IH1, IH2, IH3, IH4, IH5⟩ :=
        ih (offset + min cs (fileSize - offset)) (idx + 1) hfuel
      have hrw : fileSize - (offset + min cs (fileSize - offset))
          = fileSize - offset - min cs (fileSize - offset) := by omega
      refine ⟨?_, ?_, ?_, ?_, ?_⟩
      · simp only [analyzeLoop, if_pos hoff, List.length_cons]
        rw [IH1, hrw]
        exact ceilDiv_succ_step cs (fileSize - offset) hcs hr
      · simp only [analyzeLoop, if_pos hoff, contiguousFromB]
        simp [IH2]
      · simp only [analyzeLoop, if_pos hoff, List.map_cons, List.sum_cons]
        rw [IH3, hrw]
        omega
      · intro c hc
        simp only [analyzeLoop, if_pos hoff] at hc
        rcases htail : analyzeLoop md5 src cs fileSize fuel
            (offset + min cs (fileSize - offset)) (idx + 1) with _ | ⟨t, ts⟩
        · rw [htail] at hc
          simp [List.dropLast] at hc
        · rw [htail] at hc
          rw [List.dropLast_cons₂, List.mem_cons] at hc
          have hszcs : min cs (fileSize - offset) = cs := by
            by_contra hne
            have hlt : fileSize - offset < cs := by omega
            have hmin : min cs (fileSize - offset) = fileSize - offset :=
              min_eq_right (le_of_lt hlt)
            have hzero : fileSize - (offset + min cs (fileSize - offset)) = 0 := by
              omega
            rw [htail] at IH1
            rw [hzero] at IH1
            have : (0 + cs - 1) / cs = 0 := Nat.div_eq_of_lt (by omega)
            rw [this] at IH1
            simp at IH1
          rcases hc with hceq | hctail
          · subst hceq; simpa using hszcs
          · exact IH4 c (by rw [htail]; exact hctail)
      · intro c hc
        simp only [analyzeLoop, if_pos hoff, List.mem_cons] at hc
        rcases hc with hc | hc
        · rw [hc]
          constructor
          · exact hpos
          · exact min_le_left _ _
        · exact IH5 c hc
    · have h0 : fileSize - offset = 0 := by omega
      have hdiv : (fileSize - offset + cs - 1) / cs = 0 := by
        rw [h0]; exact Nat.div_eq_of_lt (by omega)
      refine ⟨?_, ?_, ?_, ?_, ?_⟩
      · simp [analyzeLoop, hoff, hdiv]
      · simp [analyzeLoop, hoff, contiguousFromB]
      · simp [analyzeLoop, hoff, h0]
      · simp [analyzeLoop, hoff]
      · simp [analyzeLoop, hoff]

/-- Contiguity from any origin plus positive sizes gives strictly increasing
offsets. -/
theorem contiguous_offsets_mono (l : List ExtendedChunkInfo) :
    ∀ o, contiguousFromB o l = true → (∀ c ∈ l, 0 < c.actualSize) →
      List.Chain' (fun a b => a.offset < b.offset) l := by
  induction l with
  | nil => intro o _ _; simp
  | cons c rest ih =>
    intro o hcont hpos
    simp only [contiguousFromB, Bool.and_eq_true, beq_iff_eq] at hcont
    obtain ⟨hoff, hrest⟩ := hcont
    have hchain := ih (o + c.actualSize) hrest
      (fun d hd => hpos d (List.mem_cons_of_mem _ hd))
    cases rest with
    | nil => simp
    | cons d ds =>
      rw [List.chain'_cons]
      refine ⟨?_, hchain⟩
      simp only [contiguousFromB, Bool.and_eq_true, beq_iff_eq] at hrest
      have : 0 < c.actualSize := hpos c (List.mem_cons_self _ _)
      omega

/-- In a list whose non-last elements all have size `cs`, the last element's
size plus `cs * (length - 1)` is the total. -/
theorem last_size_of_dropLast_const (cs : Nat) :
    ∀ (l : List ExtendedChunkInfo) (S : Nat),
      (l.map (fun c => c.actualSize)).sum = S →
      (∀ c ∈ l.dropLast, c.actualSize = cs) →
      ∀ c, l.getLast? = some c → c.actualSize + cs * (l.length - 1) = S := by
  intro l
  induction l with
  | nil => intro S _ _ c hc; simp at hc
  | cons a rest ih =>
    intro S hsum hdrop c hc
    cases rest with
    | nil =>
      simp at hc
      subst hc
      simp at hsum
      simpa using hsum
    | cons b t =>
      have hlast : (b :: t).getLast? = some c := by
        simpa [List.getLast?] using hc
      have hacs : a.actualSize = cs := by
        apply hdrop
        simp [List.dropLast]
      have hsum' : ((b :: t).map (fun c => c.actualSize)).sum
          = S - a.actualSize := by
        simp only [List.map_cons, List.sum_cons] at hsum ⊢
        omega
      have hdrop' : ∀ d ∈ (b :: t).dropLast, d.actualSize = cs := by
        intro d hd
        apply hdrop
        simp only [List.dropLast]
        exact List.mem_cons_of_mem _ hd
      have hihs := ih (S - a.actualSize) hsum' hdrop' c hlast
      have hsum2 : a.actualSize + ((b :: t).map (fun c => c.actualSize)).sum
          = S := by simpa using hsum
      have hlen2 : (a :: b :: t).length - 1 = ((b :: t).length - 1) + 1 := by
        simp only [List.length_cons]
        omega
      rw [hlen2, Nat.mul_succ]
      omega

theorem CreateChunks_length (t : Int) (n cs : Nat) :
    (TransferStatusDB.CreateChunks t n cs).length = n := by
  simp [TransferStatusDB.CreateChunks]

theorem CreateChunks_map_chunkSize (t : Int) (n cs : Nat) :
    (TransferStatusDB.CreateChunks t n cs).map (fun r => r.chunkSize)
      = List.replicate n cs := by
  simp only [TransferStatusDB.CreateChunks, List.map_map]
  have : ((fun r : ChunkRow => r.chunkSize) ∘ fun i =>
      ({ taskId := t, chunkIndex := i, chunkSize := cs, offset := i * cs,
         status := ChunkStatus.PENDING, md5Hash := "",
         retryCount := 0 } : ChunkRow)) = fun _ => cs := rfl
  rw [this]
  induction n with
  | zero => simp
  | succ n ih => simp [List.range_succ, ih, List.replicate_succ']

theorem CreateChunks_map_offset (t : Int) (n cs : Nat) :
    (TransferStatusDB.CreateChunks t n cs).map (fun r => r.offset)
      = (List.range n).map (fun i => i * cs) := by
  simp [TransferStatusDB.CreateChunks, List.map_map]

/-- Claim C2 (amended).  In-memory planning
(`AnalyzeFileAndCreateChunks`, for `file_size ≥ 0`, `chunk_size > 0`)
produces exactly `ceil(file_size / chunk_size)` descriptors (zero for an
empty file), contiguous from offset 0 with strictly increasing offsets,
`actual_size = chunk_size` for every chunk but the last, the last holding
the remainder, and the sizes summing to `file_size`.  The chunk rows
persisted by `TransferStatusDB::CreateChunks`, however, all carry the
uniform nominal `chunk_size` (also the last row) with `offset = i *
chunk_size`; `actual_size` is not persisted, so the persisted sizes sum to
`total_chunks * chunk_size`, not to `file_size` (the row count does agree
with the plan). -/
theorem C2_amended_plan_layout (md5 : Content → String) (src : Content)
    (fileSize cs : Nat) (hcs : 0 < cs) :
    (AnalyzeFileAndCreateChunks md5 src cs fileSize).length
        = (fileSize + cs - 1) / cs
    ∧ contiguousFromB 0 (AnalyzeFileAndCreateChunks md5 src cs fileSize) = true
    ∧ List.Chain' (fun a b => a.offset < b.offset)
        (AnalyzeFileAndCreateChunks md5 src cs fileSize)
    ∧ ((AnalyzeFileAndCreateChunks md5 src cs fileSize).map
          (fun c => c.actualSize)).sum = fileSize
    ∧ (∀ c ∈ (AnalyzeFileAndCreateChunks md5 src cs fileSize).dropLast,
          c.actualSize = cs)
    ∧ (∀ c, (AnalyzeFileAndCreateChunks md5 src cs fileSize).getLast? = some c →
          c.actualSize
            + cs * ((AnalyzeFileAndCreateChunks md5 src cs fileSize).length - 1)
            = fileSize)
    ∧ (∀ t : Int, (TransferStatusDB.CreateTransferTaskRows t fileSize cs).length
          = (AnalyzeFileAndCreateChunks md5 src cs fileSize).length)
    ∧ (∀ t : Int,
        (TransferStatusDB.CreateTransferTaskRows t fileSize cs).map
            (fun r => r.chunkSize)
          = List.replicate (TransferStatusDB.totalChunksOf fileSize cs) cs)
    ∧ (∀ t : Int,
        (TransferStatusDB.CreateTransferTaskRows t fileSize cs).map
            (fun r => r.offset)
          = (List.range (TransferStatusDB.totalChunksOf fileSize cs)).map
              (fun i => i * cs)) := by
  obtain ⟨h1, h2, h3, h4, h5⟩ :=
    analyzeLoop_spec md5 src cs fileSize hcs fileSize 0 0 (by omega)
  have hlen : (AnalyzeFileAndCreateChunks md5 src cs fileSize).length
      = (fileSize + cs - 1) / cs := by
    simpa [AnalyzeFileAndCreateChunks] using h1
  refine ⟨hlen, h2, ?_, by simpa using h3, h4, ?_, ?_, ?_, ?_⟩
  · exact contiguous_offsets_mono _ 0 h2 (fun c hc => (h5 c hc).1)
  · intro c hc
    exact last_size_of_dropLast_const cs _ fileSize (by simpa using h3) h4 c hc
  · intro t
    rw [hlen]
    simp [TransferStatusDB.CreateTransferTaskRows, CreateChunks_length,
      TransferStatusDB.totalChunksOf]
  · intro t
    exact CreateChunks_map_chunkSize t _ cs
  · intro t
    exact CreateChunks_map_offset t _ cs

/-- Claim C2 counterexample.  For `file_size = 3`, `chunk_size = 2` the
in-memory plan has sizes `[2, 1]` summing to 3, but the chunk rows persisted
by `TransferStatusDB::CreateTransferTask` both carry `chunk_size = 2`: the
persisted sizes sum to 4 ≠ 3 and the last persisted row does not hold the
remainder 1, so the claimed layout invariant fails for the store. -/
theorem C2_counterexample :
    ((AnalyzeFileAndCreateChunks (fun _ => "") [0, 0, 0] 2 3).map
        (fun c => c.actualSize)) = [2, 1]
    ∧ ((TransferStatusDB.CreateTransferTaskRows 1 3 2).map
        (fun r => r.chunkSize)) = [2, 2]
    ∧ ((TransferStatusDB.CreateTransferTaskRows 1 3 2).map
        (fun r => r.chunkSize)).sum ≠ 3 := by
  refine ⟨by decide, ?_, ?_⟩ <;> decide

/-- Witness for `C2_amended_plan_layout` at `file_size = 3`,
`chunk_size = 2`. -/
theorem C2_amended_plan_layout_witness :
    0 < 2
    ∧ ((AnalyzeFileAndCreateChunks (fun _ => "") [0, 0, 0] 2 3).map
          (fun c => c.actualSize)).sum = 3 :=
  ⟨by decide, (C2_amended_plan_layout (fun _ => "") [0, 0, 0] 3 2 (by decide)).2.2.2.1⟩

/-! ## Claim C4: `md5_hash` is not write-once -/

/-- A chunk row holding a previously written digest, for the C4
counterexample. -/
def c4Row : ChunkRow :=
  { taskId := 1, chunkIndex := 0, chunkSize := 4, offset := 0,
    status := ChunkStatus.DOWNLOADING, md5Hash := "abc", retryCount := 0 }

/-- Claim C4 counterexample.  `TransferStatusDB::UpdateChunkStatus` executes
`SET status = ?, md5_hash = ?` unconditionally: updating a row whose
`md5_hash` is already the non-empty `"abc"` with the default argument `""`
erases the stored digest, so `md5_hash` is not write-once and the argument is
not ignored when already set. -/
theorem C4_counterexample :
    c4Row.md5Hash = "abc"
    ∧ ((TransferStatusDB.UpdateChunkStatus [c4Row] 1 0
          ChunkStatus.COMPLETED "").map (fun r => r.md5Hash)) = [""]
    ∧ ("" : String) ≠ "abc" := by
  refine ⟨by decide, by decide, by decide⟩

/-- Claim C4 (amended).  Every `update_chunk_status` call overwrites the
matching row's `md5_hash` with its `md5_hash` argument (and its status with
the status argument), leaving other rows unchanged; the manager's wrapper
`ChunkTransferManager::UpdateChunkStatus` always passes the C++ default
`""`, so it erases any digest stored on the row. -/
theorem C4_amended_md5_overwritten (rows : List ChunkRow) (t : Int) (i : Nat)
    (s : ChunkStatus) (m : String) (k : Nat) (r : ChunkRow)
    (hk : rows[k]? = some r) :
    (r.taskId = t ∧ r.chunkIndex = i →
      (TransferStatusDB.UpdateChunkStatus rows t i s m)[k]?
          = some { r with status := s, md5Hash := m }
      ∧ (ChunkTransferManager.UpdateChunkStatusRows rows t i s)[k]?
          = some { r with status := s, md5Hash := "" })
    ∧ (¬ (r.taskId = t ∧ r.chunkIndex = i) →
      (TransferStatusDB.UpdateChunkStatus rows t i s m)[k]? = some r) := by
  constructor
  · intro hm
    constructor
    · simp [TransferStatusDB.UpdateChunkStatus, List.getElem?_map, hk, hm]
    · simp [ChunkTransferManager.UpdateChunkStatusRows,
        TransferStatusDB.UpdateChunkStatus, List.getElem?_map, hk, hm]
  · intro hm
    simp [TransferStatusDB.UpdateChunkStatus, List.getElem?_map, hk, hm]

/-- Witness for `C4_amended_md5_overwritten` on the single-row table
`[c4Row]`. -/
theorem C4_amended_md5_overwritten_witness :
    ([c4Row][0]? = some c4Row)
    ∧ (c4Row.taskId = 1 ∧ c4Row.chunkIndex = 0)
    ∧ (TransferStatusDB.UpdateChunkStatus [c4Row] 1 0
          ChunkStatus.COMPLETED "zz")[0]?
        = some { c4Row with status := ChunkStatus.COMPLETED, md5Hash := "zz" } := by
  refine ⟨by decide, by decide, ?_⟩
  exact ((C4_amended_md5_overwritten [c4Row] 1 0 ChunkStatus.COMPLETED "zz" 0
    c4Row (by decide)).1 (by decide)).1

/-! ## Chunk executor (`TransferChunk` / `VerifyChunk`)

`TransferChunk` opens the source, seeks to `chunk.offset`, copies exactly
`chunk.actual_size` bytes into the temp artifact, and on a short copy removes
the partial temp artifact and fails.  On success it sets the in-memory chunk
status to COMPLETED and immediately writes COMPLETED to the durable store —
before any verification (`chunk.last_update`, a wall-clock timestamp, is not
modeled).  I/O write errors and exceptions are not modeled (writes succeed);
a missing source models the open failure. -/

structure AttemptOut where
  fs : FS
  chunk : ExtendedChunkInfo
  events : List Ev
  ok : Bool
deriving DecidableEq, Repr

def TransferChunk (sourcePath destPath : String) (fs : FS)
    (c : ExtendedChunkInfo) : AttemptOut :=
  match fsRead fs sourcePath with
  | none => { fs := fs, chunk := c, events := [], ok := false }
  | some content =>
    if ((content.drop c.offset).take c.actualSize).length = c.actualSize then
      { fs := fsWrite fs (tempChunkPath destPath c.chunkIndex)
          ((content.drop c.offset).take c.actualSize),
        chunk := { c with status := ChunkStatus.COMPLETED },
        events := [Ev.chunkStatus c.chunkIndex ChunkStatus.COMPLETED],
        ok := true }
    else
      { fs := fsRemove fs (tempChunkPath destPath c.chunkIndex), chunk := c,
        events := [], ok := false }

/-- Source `VerifyChunk`: the temp artifact exists, its size equals
`chunk.actual_size`, and its MD5 equals `chunk.md5_hash`. -/
def VerifyChunk (md5 : Content → String) (destPath : String) (fs : FS)
    (c : ExtendedChunkInfo) : Bool :=
  match fsRead fs (tempChunkPath destPath c.chunkIndex) with
  | none => false
  | some data => data.length == c.actualSize && md5 data == c.md5Hash

/-- One iteration of the retry loop body in `ProcessTransferTask`:
`chunk_success = TransferChunk(...)`, then `if (chunk_success) chunk_success
= VerifyChunk(...)`, and on failure `chunk.retry_count++` plus a durable
FAILED chunk write.  Note the in-memory chunk status stays COMPLETED when
only the verification fails (the source never resets it). -/
def attemptChunk (md5 : Content → String) (sourcePath destPath : String)
    (fs : FS) (c : ExtendedChunkInfo) : AttemptOut :=
  let t := TransferChunk sourcePath destPath fs c
  if t.ok then
    let v := VerifyChunk md5 destPath t.fs t.chunk
    if v then
      { fs := t.fs, chunk := t.chunk,
        events := t.events ++ [Ev.verifyChunk c.chunkIndex v], ok := true }
    else
      { fs := t.fs,
        chunk := { t.chunk with retryCount := t.chunk.retryCount + 1 },
        events := t.events ++ [Ev.verifyChunk c.chunkIndex v,
          Ev.chunkStatus c.chunkIndex ChunkStatus.FAILED],
        ok := false }
  else
    { fs := t.fs,
      chunk := { t.chunk with retryCount := t.chunk.retryCount + 1 },
      events := t.events ++ [Ev.chunkStatus c.chunkIndex ChunkStatus.FAILED],
      ok := false }

/-! ## The retry loop
`for (int retry = 0; retry <= max_retries_ && !chunk_success; ++retry)`,
with `sleep(1 << (retry - 1))` seconds before every retry with
`retry > 0`. -/

structure RetryOut where
  fs : FS
  chunk : ExtendedChunkInfo
  events : List Ev
  attempts : Nat
  sleeps : List Nat
  ok : Bool
deriving DecidableEq, Repr

def chunkRetryLoop (md5 : Content → String) (sourcePath destPath : String) :
    Nat → Nat → FS → ExtendedChunkInfo → RetryOut
  | 0, _, fs, c =>
    { fs := fs, chunk := c, events := [], attempts := 0, sleeps := [],
      ok := false }
  | budget + 1, retry, fs, c =>
    let sl : List Nat := if 0 < retry then [2 ^ (retry - 1)] else []
    let a := attemptChunk md5 sourcePath destPath fs c
    if a.ok then
      { fs := a.fs, chunk := a.chunk, events := sl.map Ev.sleep ++ a.events,
        attempts := 1, sleeps := sl, ok := true }
    else
      let r := chunkRetryLoop md5 sourcePath destPath budget (retry + 1)
        a.fs a.chunk
      { fs := r.fs, chunk := r.chunk,
        events := sl.map Ev.sleep ++ a.events ++ r.events,
        attempts := r.attempts + 1, sleeps := sl ++ r.sleeps, ok := r.ok }

/-- The full retry budget of one chunk: iterations `retry = 0 ..
max_retries`, i.e. at most `max_retries + 1` attempts. -/
def runChunkRetries (md5 : Content → String) (sourcePath destPath : String)
    (maxRetries : Nat) (fs : FS) (c : ExtendedChunkInfo) : RetryOut :=
  chunkRetryLoop md5 sourcePath destPath (maxRetries + 1) 0 fs c

/-! ## The per-task chunk loop of `ProcessTransferTask`

At each chunk boundary the runner re-reads the task's in-memory status (the
concurrent pause writer is the oracle `pause`), then checks the global
shutdown flag (oracle `shutdown`), skips chunks already COMPLETED, and
otherwise spends the retry budget; on chunk success it adds
`chunk.actual_size` to `transferred_bytes` and notifies progress. -/

structure LoopOut where
  fs : FS
  chunks : List ExtendedChunkInfo
  transferred : Nat
  events : List Ev
  paused : Bool
  ok : Bool
  errorMessage : String
deriving DecidableEq, Repr

def chunkLoop (md5 : Content → String) (maxRetries : Nat)
    (sourcePath destPath : String) (pause shutdown : Nat → Bool) :
    FS → List ExtendedChunkInfo → Nat → Nat → LoopOut
  | fs, [], _, tb =>
    { fs := fs, chunks := [], transferred := tb, events := [], paused := false,
      ok := true, errorMessage := "" }
  | fs, c :: rest, k, tb =>
    if pause k then
      { fs := fs, chunks := c :: rest, transferred := tb, events := [],
        paused := true, ok := false, errorMessage := "" }
    else if shutdown k then
      { fs := fs, chunks := c :: rest, transferred := tb, events := [],
        paused := false, ok := false, errorMessage := "传输被中断" }
    else if c.status = ChunkStatus.COMPLETED then
      let r := chunkLoop md5 maxRetries sourcePath destPath pause shutdown
        fs rest (k + 1) tb
      { r with chunks := c :: r.chunks }
    else
      let R := runChunkRetries md5 sourcePath destPath maxRetries fs c
      if R.ok then
        let r := chunkLoop md5 maxRetries sourcePath destPath pause shutdown
          R.fs rest (k + 1) (tb + c.actualSize)
        { r with
          chunks := R.chunk :: r.chunks
          events := R.events ++ Ev.progress (tb + c.actualSize) :: r.events }
      else
        { fs := R.fs, chunks := R.chunk :: rest, transferred := tb,
          events := R.events, paused := false, ok := false,
          errorMessage := "分块传输失败: chunk " ++ toString c.chunkIndex }

/-! ## Merge, final verification, cleanup -/

/-- The append loop of `MergeChunks`: concatenate the temp artifacts in
`chunk_index` order; a missing temp artifact aborts (`false`), leaving the
bytes accumulated so far. -/
def mergeLoop (destPath : String) (fs : FS) :
    List ExtendedChunkInfo → Content → Content × Bool
  | [], acc => (acc, true)
  | c :: rest, acc =>
    match fsRead fs (tempChunkPath destPath c.chunkIndex) with
    | none => (acc, false)
    | some d => mergeLoop destPath fs rest (acc ++ d)

/-- Source `MergeChunks` creates/truncates the destination first (an `std::ofstream`)
and appends each temp artifact; on failure the partially merged destination
remains on disk. -/
def MergeChunks (destPath : String) (chunks : List ExtendedChunkInfo)
    (fs : FS) : FS × Bool :=
  let m := mergeLoop destPath fs chunks []
  (fsWrite fs destPath m.1, m.2)

/-- Source `VerifyFinalFile`: destination exists, its size equals `task.file_size`,
its MD5 equals `task.file_checksum`. -/
def VerifyFinalFile (md5 : Content → String) (task : TransferTaskInfo)
    (fs : FS) : Bool :=
  match fsRead fs task.destPath with
  | none => false
  | some d => d.length == task.fileSize && md5 d == task.fileChecksum

/-- Source `CleanupTempFiles`: remove every temp artifact of the task (the source
checks existence first and ignores removal errors; net effect: the temp
artifacts are gone). -/
def CleanupTempFiles (destPath : String) :
    List ExtendedChunkInfo → FS → FS
  | [], fs => fs
  | c :: rest, fs =>
    CleanupTempFiles destPath rest
      (fsRemove fs (tempChunkPath destPath c.chunkIndex))

/-! ## `ProcessTransferTask` -/

structure RunResult where
  fs : FS
  chunks : List ExtendedChunkInfo
  transferred : Nat
  status : TransferStatus
  errorMessage : String
  events : List Ev
  paused : Bool
  success : Bool
deriving DecidableEq, Repr

/-- The tail of `ProcessTransferTask` after the chunk loop: on an observed
pause, return with nothing further (no merge, no verification, no status
write, no cleanup, no callback).  Otherwise merge if the loop succeeded,
verify the final file if the merge succeeded, write the terminal task status
(COMPLETED/FAILED), clean up the temp artifacts, and invoke the completion
callback once with the success flag and error message. -/
def finishRun (md5 : Content → String) (task : TransferTaskInfo)
    (L : LoopOut) : RunResult :=
  if L.paused then
    { fs := L.fs, chunks := L.chunks, transferred := L.transferred,
      status := TransferStatus.PAUSED, errorMessage := L.errorMessage,
      events := Ev.taskStatus TransferStatus.DOWNLOADING :: L.events,
      paused := true, success := false }
  else if L.ok then
    let M := MergeChunks task.destPath L.chunks L.fs
    if M.2 then
      let v := VerifyFinalFile md5 task M.1
      { fs := CleanupTempFiles task.destPath L.chunks M.1,
        chunks := L.chunks, transferred := L.transferred,
        status := if v then TransferStatus.COMPLETED else TransferStatus.FAILED,
        errorMessage := if v then "" else "最终文件验证失败",
        events := Ev.taskStatus TransferStatus.DOWNLOADING ::
          (L.events ++ [Ev.verifyFinal v,
            Ev.taskStatus
              (if v then TransferStatus.COMPLETED else TransferStatus.FAILED),
            Ev.completion v (if v then "" else "最终文件验证失败")]),
        paused := false, success := v }
    else
      { fs := CleanupTempFiles task.destPath L.chunks M.1,
        chunks := L.chunks, transferred := L.transferred,
        status := TransferStatus.FAILED, errorMessage := "分块合并失败",
        events := Ev.taskStatus TransferStatus.DOWNLOADING ::
          (L.events ++ [Ev.taskStatus TransferStatus.FAILED,
            Ev.completion false "分块合并失败"]),
        paused := false, success := false }
  else
    { fs := CleanupTempFiles task.destPath L.chunks L.fs,
      chunks := L.chunks, transferred := L.transferred,
      status := TransferStatus.FAILED, errorMessage := L.errorMessage,
      events := Ev.taskStatus TransferStatus.DOWNLOADING ::
        (L.events ++ [Ev.taskStatus TransferStatus.FAILED,
          Ev.completion false L.errorMessage]),
      paused := false, success := false }

/-- One worker run of a task (`ProcessTransferTask`), for a task present in
the task map: set DOWNLOADING (a durable status write), run the chunk loop,
then finish.  Creation of the destination's parent directory is not modeled
(the filesystem model has no directories). -/
def ProcessTransferTask (md5 : Content → String) (maxRetries : Nat)
    (pause shutdown : Nat → Bool) (fs0 : FS) (task : TransferTaskInfo) :
    RunResult :=
  finishRun md5 task
    (chunkLoop md5 maxRetries task.sourcePath task.destPath pause shutdown
      fs0 task.chunks 0 task.transferredBytes)

/-! ## Cleanup lemmas -/

theorem fsRead_CleanupTempFiles_none (destPath : String) :
    ∀ (chunks : List ExtendedChunkInfo) (fs : FS) (p : String),
      fsRead fs p = none →
      fsRead (CleanupTempFiles destPath chunks fs) p = none := by
  intro chunks
  induction chunks with
  | nil => intro fs p h; simpa [CleanupTempFiles] using h
  | cons c rest ih =>
    intro fs p h
    simp only [CleanupTempFiles]
    apply ih
    rw [fsRead_fsRemove]
    by_cases hc : tempChunkPath destPath c.chunkIndex = p <;> simp [hc, h]

theorem fsRead_CleanupTempFiles_mem (destPath : String) :
    ∀ (chunks : List ExtendedChunkInfo) (fs : FS) (c : ExtendedChunkInfo),
      c ∈ chunks →
      fsRead (CleanupTempFiles destPath chunks fs)
        (tempChunkPath destPath c.chunkIndex) = none := by
  intro chunks
  induction chunks with
  | nil => intro fs c h; simp at h
  | cons a rest ih =>
    intro fs c h
    rcases List.mem_cons.mp h with hc | hc
    · subst hc
      simp only [CleanupTempFiles]
      by_cases hmem : c ∈ rest
      · exact ih _ c hmem
      · apply fsRead_CleanupTempFiles_none
        rw [fsRead_fsRemove]
        simp
    · simp only [CleanupTempFiles]
      exact ih _ c hc

theorem fsRead_CleanupTempFiles_ne (destPath : String) :
    ∀ (chunks : List ExtendedChunkInfo) (fs : FS) (p : String),
      (∀ c ∈ chunks, p ≠ tempChunkPath destPath c.chunkIndex) →
      fsRead (CleanupTempFiles destPath chunks fs) p = fsRead fs p := by
  intro chunks
  induction chunks with
  | nil => intro fs p _; simp [CleanupTempFiles]
  | cons a rest ih =>
    intro fs p h
    simp only [CleanupTempFiles]
    rw [ih _ p (fun c hc => h c (List.mem_cons_of_mem _ hc))]
    rw [fsRead_fsRemove]
    have := h a (List.mem_cons_self _ _)
    rw [if_neg (fun hc => this hc.symm)]

/-! ## The executor and retry loop preserve the chunk index -/

theorem TransferChunk_chunkIndex (sourcePath destPath : String) (fs : FS)
    (c : ExtendedChunkInfo) :
    (TransferChunk sourcePath destPath fs c).chunk.chunkIndex = c.chunkIndex := by
  unfold TransferChunk
  cases fsRead fs sourcePath <;> simp
  split <;> simp

theorem attemptChunk_chunkIndex (md5 : Content → String)
    (sourcePath destPath : String) (fs : FS) (c : ExtendedChunkInfo) :
    (attemptChunk md5 sourcePath destPath fs c).chunk.chunkIndex
      = c.chunkIndex := by
  by_cases ht : (TransferChunk sourcePath destPath fs c).ok
  · by_cases hv : VerifyChunk md5 destPath (TransferChunk sourcePath destPath fs c).fs
        (TransferChunk sourcePath destPath fs c).chunk
    · simp [attemptChunk, ht, hv, TransferChunk_chunkIndex]
    · simp [attemptChunk, ht, hv, TransferChunk_chunkIndex]
  · simp [attemptChunk, ht, TransferChunk_chunkIndex]

theorem chunkRetryLoop_chunkIndex (md5 : Content → String)
    (sourcePath destPath : String) :
    ∀ (budget retry : Nat) (fs : FS) (c : ExtendedChunkInfo),
      (chunkRetryLoop md5 sourcePath destPath budget retry fs c).chunk.chunkIndex
        = c.chunkIndex := by
  intro budget
  induction budget with
  | zero => intro retry fs c; simp [chunkRetryLoop]
  | succ budget ih =>
    intro retry fs c
    simp only [chunkRetryLoop]
    split
    · simp [attemptChunk_chunkIndex]
    · simp [ih, attemptChunk_chunkIndex]

theorem chunkLoop_map_chunkIndex (md5 : Content → String) (maxRetries : Nat)
    (sourcePath destPath : String) (pause shutdown : Nat → Bool) :
    ∀ (l : List ExtendedChunkInfo) (fs : FS) (k tb : Nat),
      (chunkLoop md5 maxRetries sourcePath destPath pause shutdown
          fs l k tb).chunks.map (fun c => c.chunkIndex)
        = l.map (fun c => c.chunkIndex) := by
  intro l
  induction l with
  | nil => intro fs k tb; simp [chunkLoop]
  | cons c rest ih =>
    intro fs k tb
    simp only [chunkLoop]
    split
    · simp
    · split
      · simp
      · split
        · simp [ih]
        · split
          · simp [ih, runChunkRetries, chunkRetryLoop_chunkIndex]
          · simp [runChunkRetries, chunkRetryLoop_chunkIndex]

/-! ## Event classes -/

/-- The completion-callback invocations in a trace. -/
def completionEvents (l : List Ev) : List Ev :=
  l.filter fun e =>
    match e with
    | Ev.completion _ _ => true
    | _ => false

/-- The durable task-status writes in a trace. -/
def taskStatusEvents (l : List Ev) : List Ev :=
  l.filter fun e =>
    match e with
    | Ev.taskStatus _ => true
    | _ => false

theorem completionEvents_append (l1 l2 : List Ev) :
    completionEvents (l1 ++ l2) = completionEvents l1 ++ completionEvents l2 := by
  simp [completionEvents, List.filter_append]

theorem taskStatusEvents_append (l1 l2 : List Ev) :
    taskStatusEvents (l1 ++ l2) = taskStatusEvents l1 ++ taskStatusEvents l2 := by
  simp [taskStatusEvents, List.filter_append]

theorem completionEvents_progress_cons (n : Nat) (l : List Ev) :
    completionEvents (Ev.progress n :: l) = completionEvents l := rfl

theorem taskStatusEvents_progress_cons (n : Nat) (l : List Ev) :
    taskStatusEvents (Ev.progress n :: l) = taskStatusEvents l := rfl

theorem TransferChunk_events_cases (sourcePath destPath : String) (fs : FS)
    (c : ExtendedChunkInfo) :
    (TransferChunk sourcePath destPath fs c).events
        = [Ev.chunkStatus c.chunkIndex ChunkStatus.COMPLETED]
    ∨ (TransferChunk sourcePath destPath fs c).events = [] := by
  unfold TransferChunk
  rcases hread : fsRead fs sourcePath with _ | content
  · simp [hread]
  · simp only [hread]
    split
    · simp
    · simp

theorem TransferChunk_events_classes (sourcePath destPath : String) (fs : FS)
    (c : ExtendedChunkInfo) :
    completionEvents (TransferChunk sourcePath destPath fs c).events = []
    ∧ taskStatusEvents (TransferChunk sourcePath destPath fs c).events = [] := by
  obtain h | h := TransferChunk_events_cases sourcePath destPath fs c <;>
    rw [h] <;> exact ⟨rfl, rfl⟩

theorem attemptChunk_events_classes (md5 : Content → String)
    (sourcePath destPath : String) (fs : FS) (c : ExtendedChunkInfo) :
    completionEvents (attemptChunk md5 sourcePath destPath fs c).events = []
    ∧ taskStatusEvents (attemptChunk md5 sourcePath destPath fs c).events = [] := by
  obtain ⟨h1, h2⟩ := TransferChunk_events_classes sourcePath destPath fs c
  by_cases ht : (TransferChunk sourcePath destPath fs c).ok
  · by_cases hv : VerifyChunk md5 destPath (TransferChunk sourcePath destPath fs c).fs
        (TransferChunk sourcePath destPath fs c).chunk
    · simp only [attemptChunk, if_pos ht, if_pos hv]
      rw [completionEvents_append, taskStatusEvents_append, h1, h2]
      exact ⟨rfl, rfl⟩
    · simp only [attemptChunk, if_pos ht, if_neg hv]
      rw [completionEvents_append, taskStatusEvents_append, h1, h2]
      exact ⟨rfl, rfl⟩
  · simp only [attemptChunk, if_neg ht]
    rw [completionEvents_append, taskStatusEvents_append, h1, h2]
    exact ⟨rfl, rfl⟩

theorem sleepEvents_classes (xs : List Nat) :
    completionEvents (xs.map Ev.sleep) = []
    ∧ taskStatusEvents (xs.map Ev.sleep) = [] := by
  induction xs with
  | nil => exact ⟨rfl, rfl⟩
  | cons x xs ih =>
    obtain ⟨ih1, ih2⟩ := ih
    constructor
    · show completionEvents (Ev.sleep x :: xs.map Ev.sleep) = []
      rw [show completionEvents (Ev.sleep x :: xs.map Ev.sleep)
          = completionEvents (xs.map Ev.sleep) from rfl, ih1]
    · show taskStatusEvents (Ev.sleep x :: xs.map Ev.sleep) = []
      rw [show taskStatusEvents (Ev.sleep x :: xs.map Ev.sleep)
          = taskStatusEvents (xs.map Ev.sleep) from rfl, ih2]

theorem chunkRetryLoop_events_classes (md5 : Content → String)
    (sourcePath destPath : String) :
    ∀ (budget retry : Nat) (fs : FS) (c : ExtendedChunkInfo),
      completionEvents
          (chunkRetryLoop md5 sourcePath destPath budget retry fs c).events = []
      ∧ taskStatusEvents
          (chunkRetryLoop md5 sourcePath destPath budget retry fs c).events = [] := by
  intro budget
  induction budget with
  | zero => intro retry fs c; exact ⟨rfl, rfl⟩
  | succ budget ih =>
    intro retry fs c
    obtain ⟨a1, a2⟩ := attemptChunk_events_classes md5 sourcePath destPath fs c
    obtain ⟨s1, s2⟩ :=
      sleepEvents_classes (if 0 < retry then [2 ^ (retry - 1)] else [])
    obtain ⟨r1, r2⟩ := ih (retry + 1)
      (attemptChunk md5 sourcePath destPath fs c).fs
      (attemptChunk md5 sourcePath destPath fs c).chunk
    by_cases ha : (attemptChunk md5 sourcePath destPath fs c).ok
    · simp only [chunkRetryLoop, if_pos ha]
      rw [completionEvents_append, taskStatusEvents_append, a1, a2, s1, s2]
      exact ⟨rfl, rfl⟩
    · simp only [chunkRetryLoop, if_neg ha]
      constructor
      · simp only [completionEvents_append, a1, s1, r1, List.nil_append,
          List.append_nil]
      · simp only [taskStatusEvents_append, a2, s2, r2, List.nil_append,
          List.append_nil]

theorem chunkLoop_events_classes (md5 : Content → String) (maxRetries : Nat)
    (sourcePath destPath : String) (pause shutdown : Nat → Bool) :
    ∀ (l : List ExtendedChunkInfo) (fs : FS) (k tb : Nat),
      completionEvents
          (chunkLoop md5 maxRetries sourcePath destPath pause shutdown
            fs l k tb).events = []
      ∧ taskStatusEvents
          (chunkLoop md5 maxRetries sourcePath destPath pause shutdown
            fs l k tb).events = [] := by
  intro l
  induction l with
  | nil => intro fs k tb; exact ⟨rfl, rfl⟩
  | cons c rest ih =>
    intro fs k tb
    obtain ⟨R1, R2⟩ := chunkRetryLoop_events_classes md5 sourcePath destPath
      (maxRetries + 1) 0 fs c
    by_cases hp : pause k
    · simp only [chunkLoop, if_pos hp]
      exact ⟨rfl, rfl⟩
    · by_cases hs : shutdown k
      · simp only [chunkLoop, if_neg hp, if_pos hs]
        exact ⟨rfl, rfl⟩
      · by_cases hcst : c.status = ChunkStatus.COMPLETED
        · simp only [chunkLoop, if_neg hp, if_neg hs, if_pos hcst]
          exact ih fs (k + 1) tb
        · have R1' : completionEvents
              (runChunkRetries md5 sourcePath destPath maxRetries fs c).events
              = [] := R1
          have R2' : taskStatusEvents
              (runChunkRetries md5 sourcePath destPath maxRetries fs c).events
              = [] := R2
          by_cases hok : (runChunkRetries md5 sourcePath destPath maxRetries fs c).ok
          · obtain ⟨i1, i2⟩ := ih (runChunkRetries md5 sourcePath destPath
              maxRetries fs c).fs (k + 1) (tb + c.actualSize)
            simp only [chunkLoop, if_neg hp, if_neg hs, if_neg hcst, if_pos hok]
            constructor
            · simp only [completionEvents_append, R1',
                completionEvents_progress_cons, i1, List.nil_append]
            · simp only [taskStatusEvents_append, R2',
                taskStatusEvents_progress_cons, i2, List.nil_append]
          · simp only [chunkLoop, if_neg hp, if_neg hs, if_neg hcst, if_neg hok]
            exact ⟨R1', R2'⟩

/-! ## Retry bound and backoff schedule (claim C6) -/

theorem chunkRetryLoop_attempts_le (md5 : Content → String)
    (sourcePath destPath : String) :
    ∀ (budget retry : Nat) (fs : FS) (c : ExtendedChunkInfo),
      (chunkRetryLoop md5 sourcePath destPath budget retry fs c).attempts
        ≤ budget := by
  intro budget
  induction budget with
  | zero => intro retry fs c; simp [chunkRetryLoop]
  | succ budget ih =>
    intro retry fs c
    simp only [chunkRetryLoop]
    split
    · simp
    · have := ih (retry + 1) (attemptChunk md5 sourcePath destPath fs c).fs
        (attemptChunk md5 sourcePath destPath fs c).chunk
      simp
      omega

theorem chunkRetryLoop_sleeps_aux (md5 : Content → String)
    (sourcePath destPath : String) :
    ∀ (budget retry : Nat) (fs : FS) (c : ExtendedChunkInfo), 1 ≤ retry →
      (chunkRetryLoop md5 sourcePath destPath budget retry fs c).sleeps
        = (List.range
            (chunkRetryLoop md5 sourcePath destPath budget retry fs c).attempts).map
            (fun j => 2 ^ (retry - 1 + j)) := by
  intro budget
  induction budget with
  | zero => intro retry fs c _; simp [chunkRetryLoop]
  | succ budget ih =>
    intro retry fs c hretry
    have hpos : 0 < retry := hretry
    simp only [chunkRetryLoop, if_pos hpos]
    split
    · have h1 : List.range 1 = [0] := rfl
      simp [h1]
    · have hr := ih (retry + 1) (attemptChunk md5 sourcePath destPath fs c).fs
        (attemptChunk md5 sourcePath destPath fs c).chunk (by omega)
      simp only [List.range_succ_eq_map, List.map_cons, List.map_map]
      rw [hr]
      have hfun : ((fun j => 2 ^ (retry - 1 + j)) ∘ Nat.succ)
          = (fun j => 2 ^ (retry + 1 - 1 + j)) := by
        funext j
        simp only [Function.comp]
        congr 1
        omega
      rw [hfun, List.singleton_append]
      simp

theorem runChunkRetries_schedule (md5 : Content → String)
    (sourcePath destPath : String) (maxRetries : Nat) (fs : FS)
    (c : ExtendedChunkInfo) :
    (runChunkRetries md5 sourcePath destPath maxRetries fs c).attempts
        ≤ maxRetries + 1
    ∧ (runChunkRetries md5 sourcePath destPath maxRetries fs c).sleeps
        = (List.range
            ((runChunkRetries md5 sourcePath destPath maxRetries fs c).attempts
              - 1)).map (fun j => 2 ^ j)
    ∧ (maxRetries = 0 →
        (runChunkRetries md5 sourcePath destPath maxRetries fs c).attempts = 1) := by
  refine ⟨chunkRetryLoop_attempts_le md5 sourcePath destPath _ 0 fs c, ?_, ?_⟩
  · unfold runChunkRetries
    simp only [chunkRetryLoop]
    split
    · simp
    · have hr := chunkRetryLoop_sleeps_aux md5 sourcePath destPath maxRetries 1
        (attemptChunk md5 sourcePath destPath fs c).fs
        (attemptChunk md5 sourcePath destPath fs c).chunk (by omega)
      simp only [Nat.lt_irrefl, if_neg, List.nil_append]
      simp [hr]
  · intro h0
    subst h0
    unfold runChunkRetries
    simp only [chunkRetryLoop]
    split
    · simp
    · simp [chunkRetryLoop]

/-- Claim C6.  A not-yet-completed chunk is attempted at most
`max_retries + 1` times; before retry number `r` (`r ≥ 1`) the worker sleeps
`2^(r-1)` seconds (so 1 second before the first retry); with
`max_retries = 0` exactly one attempt is made; and when the budget is
exhausted the run stops at that chunk: the task ends FAILED with the error
message `"分块传输失败: chunk <index>"` and the chunks after it are left
untouched. -/
theorem C6_retry_budget_and_backoff (md5 : Content → String)
    (maxRetries : Nat) (fs : FS) (task : TransferTaskInfo)
    (c : ExtendedChunkInfo) (rest : List ExtendedChunkInfo)
    (hchunks : task.chunks = c :: rest)
    (hst : c.status ≠ ChunkStatus.COMPLETED) :
    (runChunkRetries md5 task.sourcePath task.destPath maxRetries fs c).attempts
        ≤ maxRetries + 1
    ∧ (runChunkRetries md5 task.sourcePath task.destPath maxRetries fs c).sleeps
        = (List.range
            ((runChunkRetries md5 task.sourcePath task.destPath maxRetries fs
                c).attempts - 1)).map (fun j => 2 ^ j)
    ∧ (maxRetries = 0 →
        (runChunkRetries md5 task.sourcePath task.destPath maxRetries fs
            c).attempts = 1)
    ∧ ((runChunkRetries md5 task.sourcePath task.destPath maxRetries fs c).ok
          = false →
        (ProcessTransferTask md5 maxRetries (fun _ => false) (fun _ => false)
            fs task).status = TransferStatus.FAILED
        ∧ (ProcessTransferTask md5 maxRetries (fun _ => false) (fun _ => false)
            fs task).errorMessage
            = "分块传输失败: chunk " ++ toString c.chunkIndex
        ∧ (ProcessTransferTask md5 maxRetries (fun _ => false) (fun _ => false)
            fs task).chunks
            = (runChunkRetries md5 task.sourcePath task.destPath maxRetries fs
                c).chunk :: rest) := by
  obtain ⟨h1, h2, h3⟩ := runChunkRetries_schedule md5 task.sourcePath
    task.destPath maxRetries fs c
  refine ⟨h1, h2, h3, ?_⟩
  intro hfail
  simp [ProcessTransferTask, hchunks, chunkLoop, hst, hfail, finishRun]

/-- A trivial stand-in digest used to instantiate the `md5` parameter in
concrete witnesses (every theorem is proved for an arbitrary digest
function). -/
def md5z : Content → String := fun _ => ""

/-- A pending chunk whose planned digest does not match its data under
`md5z`: its verification always fails. -/
def c6Chunk : ExtendedChunkInfo :=
  { chunkIndex := 0, offset := 0, chunkSize := 1, actualSize := 1,
    md5Hash := "bad", status := ChunkStatus.PENDING, retryCount := 0 }

def task6 : TransferTaskInfo :=
  { taskId := "t6", dbTaskId := 1, sourcePath := "s", destPath := "d",
    fileSize := 1, fileChecksum := "", status := TransferStatus.PENDING,
    chunks := [c6Chunk], transferredBytes := 0 }

def fs6 : FS := [("s", [5])]

/-- Witness for `C6_retry_budget_and_backoff` with `max_retries = 0` and an
always-failing chunk: a single attempt is made and the task ends FAILED. -/
theorem C6_retry_budget_and_backoff_witness :
    task6.chunks = c6Chunk :: []
    ∧ c6Chunk.status ≠ ChunkStatus.COMPLETED
    ∧ (runChunkRetries md5z task6.sourcePath task6.destPath 0 fs6 c6Chunk).ok
        = false
    ∧ (runChunkRetries md5z task6.sourcePath task6.destPath 0 fs6
        c6Chunk).attempts = 1
    ∧ (ProcessTransferTask md5z 0 (fun _ => false) (fun _ => false) fs6
        task6).status = TransferStatus.FAILED :=
  ⟨rfl, by decide, by decide,
    (C6_retry_budget_and_backoff md5z 0 fs6 task6 c6Chunk [] rfl
      (by decide)).2.2.1 rfl,
    ((C6_retry_budget_and_backoff md5z 0 fs6 task6 c6Chunk [] rfl
      (by decide)).2.2.2 (by decide)).1⟩

/-! ## Claim C1: COMPLETED implies a verified destination and no temp
artifacts -/

theorem finishRun_completed (md5 : Content → String)
    (task : TransferTaskInfo) (L : LoopOut)
    (h : (finishRun md5 task L).status = TransferStatus.COMPLETED) :
    ∃ d, fsRead (finishRun md5 task L).fs task.destPath = some d
      ∧ d.length = task.fileSize
      ∧ md5 d = task.fileChecksum
      ∧ ∀ c ∈ L.chunks,
          fsRead (finishRun md5 task L).fs
            (tempChunkPath task.destPath c.chunkIndex) = none := by
  by_cases hp : L.paused
  · simp [finishRun, hp] at h
  · by_cases hok : L.ok
    · by_cases hm : (MergeChunks task.destPath L.chunks L.fs).2
      · by_cases hv : VerifyFinalFile md5 task
            (MergeChunks task.destPath L.chunks L.fs).1
        · have hfs : (finishRun md5 task L).fs
              = CleanupTempFiles task.destPath L.chunks
                  (MergeChunks task.destPath L.chunks L.fs).1 := by
            simp [finishRun, hp, hok, hm]
          have hv' := hv
          unfold VerifyFinalFile at hv'
          rcases hread : fsRead (MergeChunks task.destPath L.chunks L.fs).1
              task.destPath with _ | d
          · rw [hread] at hv'
            simp at hv'
          · rw [hread] at hv'
            simp only [Bool.and_eq_true, beq_iff_eq] at hv'
            obtain ⟨hlen, hmd5⟩ := hv'
            refine ⟨d, ?_, hlen, hmd5, ?_⟩
            · rw [hfs, fsRead_CleanupTempFiles_ne]
              · exact hread
              · intro c _
                exact fun he =>
                  tempChunkPath_ne_dest task.destPath c.chunkIndex he.symm
            · intro c hc
              rw [hfs]
              exact fsRead_CleanupTempFiles_mem task.destPath L.chunks _ c hc
        · simp [finishRun, hp, hok, hm, hv] at h
      · simp [finishRun, hp, hok, hm] at h
    · simp [finishRun, hp, hok] at h

/-- Claim C1.  For every run of a task, if the run leaves the task status
COMPLETED then the destination file exists, its size equals the task's
`file_size`, its MD5 equals the task's `file_checksum`, and no temp
artifact `<dest_path>.chunk.<index>` remains for any chunk of the task. -/
theorem C1_completed_implies_verified (md5 : Content → String)
    (maxRetries : Nat) (pause shutdown : Nat → Bool) (fs0 : FS)
    (task : TransferTaskInfo)
    (h : (ProcessTransferTask md5 maxRetries pause shutdown fs0 task).status
        = TransferStatus.COMPLETED) :
    ∃ d,
      fsRead (ProcessTransferTask md5 maxRetries pause shutdown fs0 task).fs
          task.destPath = some d
      ∧ d.length = task.fileSize
      ∧ md5 d = task.fileChecksum
      ∧ ∀ c ∈ task.chunks,
          fsRead (ProcessTransferTask md5 maxRetries pause shutdown fs0 task).fs
            (tempChunkPath task.destPath c.chunkIndex) = none := by
  obtain ⟨d, hd, hlen, hmd5, htemps⟩ := finishRun_completed md5 task
    (chunkLoop md5 maxRetries task.sourcePath task.destPath pause shutdown
      fs0 task.chunks 0 task.transferredBytes) h
  refine ⟨d, hd, hlen, hmd5, ?_⟩
  intro c hc
  have hidx := chunkLoop_map_chunkIndex md5 maxRetries task.sourcePath
    task.destPath pause shutdown task.chunks fs0 0 task.transferredBytes
  have hmem : c.chunkIndex ∈ (chunkLoop md5 maxRetries task.sourcePath
      task.destPath pause shutdown fs0 task.chunks 0
      task.transferredBytes).chunks.map (fun c => c.chunkIndex) := by
    rw [hidx]
    exact List.mem_map_of_mem _ hc
  obtain ⟨c', hc', hcidx⟩ := List.mem_map.mp hmem
  have hres := htemps c' hc'
  rw [hcidx] at hres
  exact hres

def fs1w : FS := [("s1", [1, 2, 3])]

/-- A task planned over the 3-byte source `[1, 2, 3]` with `chunk_size = 2`,
for the C1 witness. -/
def task1w : TransferTaskInfo :=
  { taskId := "t1", dbTaskId := 1, sourcePath := "s1", destPath := "d1",
    fileSize := 3,
    fileChecksum := CalculateFileChecksum md5z [1, 2, 3],
    status := TransferStatus.PENDING,
    chunks := AnalyzeFileAndCreateChunks md5z [1, 2, 3] 2 3,
    transferredBytes := 0 }

/-- Witness for `C1_completed_implies_verified`: a concrete run that
completes. -/
theorem C1_witness :
    (ProcessTransferTask md5z 3 (fun _ => false) (fun _ => false) fs1w
        task1w).status = TransferStatus.COMPLETED
    ∧ ∃ d,
      fsRead (ProcessTransferTask md5z 3 (fun _ => false) (fun _ => false)
          fs1w task1w).fs task1w.destPath = some d
      ∧ d.length = task1w.fileSize
      ∧ md5z d = task1w.fileChecksum
      ∧ ∀ c ∈ task1w.chunks,
          fsRead (ProcessTransferTask md5z 3 (fun _ => false) (fun _ => false)
              fs1w task1w).fs (tempChunkPath task1w.destPath c.chunkIndex)
            = none :=
  ⟨by decide, C1_completed_implies_verified md5z 3 (fun _ => false)
    (fun _ => false) fs1w task1w (by decide)⟩

/-! ## Claim C7: pause leaves everything intact and fires no callback;
terminal runs fire the completion callback exactly once -/

theorem completionEvents_taskStatus_cons (s : TransferStatus) (l : List Ev) :
    completionEvents (Ev.taskStatus s :: l) = completionEvents l := rfl

theorem taskStatusEvents_taskStatus_cons (s : TransferStatus) (l : List Ev) :
    taskStatusEvents (Ev.taskStatus s :: l)
      = Ev.taskStatus s :: taskStatusEvents l := rfl

theorem finishRun_callback_spec (md5 : Content → String)
    (task : TransferTaskInfo) (L : LoopOut)
    (hL1 : completionEvents L.events = [])
    (hL2 : taskStatusEvents L.events = []) :
    ((finishRun md5 task L).paused = true →
      (finishRun md5 task L).events
          = Ev.taskStatus TransferStatus.DOWNLOADING :: L.events
      ∧ (finishRun md5 task L).fs = L.fs
      ∧ (finishRun md5 task L).chunks = L.chunks
      ∧ completionEvents (finishRun md5 task L).events = []
      ∧ taskStatusEvents (finishRun md5 task L).events
          = [Ev.taskStatus TransferStatus.DOWNLOADING]
      ∧ (finishRun md5 task L).status = TransferStatus.PAUSED)
    ∧ ((finishRun md5 task L).paused = false →
      completionEvents (finishRun md5 task L).events
          = [Ev.completion (finishRun md5 task L).success
              (finishRun md5 task L).errorMessage]
      ∧ ((finishRun md5 task L).success = true ↔
          (finishRun md5 task L).status = TransferStatus.COMPLETED)) := by
  by_cases hp : L.paused
  · have hfr : finishRun md5 task L
        = { fs := L.fs, chunks := L.chunks, transferred := L.transferred,
            status := TransferStatus.PAUSED, errorMessage := L.errorMessage,
            events := Ev.taskStatus TransferStatus.DOWNLOADING :: L.events,
            paused := true, success := false } := by
      simp [finishRun, hp]
    rw [hfr]
    constructor
    · intro _
      refine ⟨rfl, rfl, rfl, ?_, ?_, rfl⟩
      · rw [completionEvents_taskStatus_cons, hL1]
      · rw [taskStatusEvents_taskStatus_cons, hL2]
    · intro hcontra
      simp at hcontra
  · by_cases hok : L.ok
    · by_cases hm : (MergeChunks task.destPath L.chunks L.fs).2
      · have hfr : finishRun md5 task L
            = { fs := CleanupTempFiles task.destPath L.chunks
                  (MergeChunks task.destPath L.chunks L.fs).1,
                chunks := L.chunks, transferred := L.transferred,
                status := if VerifyFinalFile md5 task
                    (MergeChunks task.destPath L.chunks L.fs).1 then
                  TransferStatus.COMPLETED else TransferStatus.FAILED,
                errorMessage := if VerifyFinalFile md5 task
                    (MergeChunks task.destPath L.chunks L.fs).1 then ""
                  else "最终文件验证失败",
                events := Ev.taskStatus TransferStatus.DOWNLOADING ::
                  (L.events ++ [Ev.verifyFinal (VerifyFinalFile md5 task
                      (MergeChunks task.destPath L.chunks L.fs).1),
                    Ev.taskStatus (if VerifyFinalFile md5 task
                        (MergeChunks task.destPath L.chunks L.fs).1 then
                      TransferStatus.COMPLETED else TransferStatus.FAILED),
                    Ev.completion (VerifyFinalFile md5 task
                        (MergeChunks task.destPath L.chunks L.fs).1)
                      (if VerifyFinalFile md5 task
                          (MergeChunks task.destPath L.chunks L.fs).1 then ""
                        else "最终文件验证失败")]),
                paused := false,
                success := VerifyFinalFile md5 task
                  (MergeChunks task.destPath L.chunks L.fs).1 } := by
          simp [finishRun, hp, hok, hm]
        rw [hfr]
        constructor
        · intro hcontra
          simp at hcontra
        · intro _
          constructor
          · rw [completionEvents_taskStatus_cons, completionEvents_append, hL1]
            rfl
          · by_cases hv : VerifyFinalFile md5 task
                (MergeChunks task.destPath L.chunks L.fs).1 <;> simp [hv]
      · have hfr : finishRun md5 task L
            = { fs := CleanupTempFiles task.destPath L.chunks
                  (MergeChunks task.destPath L.chunks L.fs).1,
                chunks := L.chunks, transferred := L.transferred,
                status := TransferStatus.FAILED,
                errorMessage := "分块合并失败",
                events := Ev.taskStatus TransferStatus.DOWNLOADING ::
                  (L.events ++ [Ev.taskStatus TransferStatus.FAILED,
                    Ev.completion false "分块合并失败"]),
                paused := false, success := false } := by
          simp [finishRun, hp, hok, hm]
        rw [hfr]
        constructor
        · intro hcontra
          simp at hcontra
        · intro _
          constructor
          · rw [completionEvents_taskStatus_cons, completionEvents_append, hL1]
            rfl
          · simp
    · have hfr : finishRun md5 task L
          = { fs := CleanupTempFiles task.destPath L.chunks L.fs,
              chunks := L.chunks, transferred := L.transferred,
              status := TransferStatus.FAILED,
              errorMessage := L.errorMessage,
              events := Ev.taskStatus TransferStatus.DOWNLOADING ::
                (L.events ++ [Ev.taskStatus TransferStatus.FAILED,
                  Ev.completion false L.errorMessage]),
              paused := false, success := false } := by
        simp [finishRun, hp, hok]
      rw [hfr]
      constructor
      · intro hcontra
        simp at hcontra
      · intro _
        constructor
        · rw [completionEvents_taskStatus_cons, completionEvents_append, hL1]
          rfl
        · simp

/-- Claim C7.  If a worker run ends because a pause was observed at a chunk
boundary: the completion callback is not invoked, no cleanup of temp
artifacts happens (the filesystem is exactly what the chunk loop left), chunk
state is exactly what the chunk loop left, and the runner writes no task
status beyond the initial DOWNLOADING (the PAUSED status itself was written
by the pause requester).  If the run ends terminally, the completion
callback is invoked exactly once, with `success = true` iff the run left the
task COMPLETED. -/
theorem C7_pause_no_callback_terminal_once (md5 : Content → String)
    (maxRetries : Nat) (pause shutdown : Nat → Bool) (fs0 : FS)
    (task : TransferTaskInfo) :
    ((ProcessTransferTask md5 maxRetries pause shutdown fs0 task).paused = true →
      (ProcessTransferTask md5 maxRetries pause shutdown fs0 task).events
          = Ev.taskStatus TransferStatus.DOWNLOADING ::
            (chunkLoop md5 maxRetries task.sourcePath task.destPath pause
              shutdown fs0 task.chunks 0 task.transferredBytes).events
      ∧ (ProcessTransferTask md5 maxRetries pause shutdown fs0 task).fs
          = (chunkLoop md5 maxRetries task.sourcePath task.destPath pause
              shutdown fs0 task.chunks 0 task.transferredBytes).fs
      ∧ (ProcessTransferTask md5 maxRetries pause shutdown fs0 task).chunks
          = (chunkLoop md5 maxRetries task.sourcePath task.destPath pause
              shutdown fs0 task.chunks 0 task.transferredBytes).chunks
      ∧ completionEvents
          (ProcessTransferTask md5 maxRetries pause shutdown fs0 task).events
          = []
      ∧ taskStatusEvents
          (ProcessTransferTask md5 maxRetries pause shutdown fs0 task).events
          = [Ev.taskStatus TransferStatus.DOWNLOADING]
      ∧ (ProcessTransferTask md5 maxRetries pause shutdown fs0 task).status
          = TransferStatus.PAUSED)
    ∧ ((ProcessTransferTask md5 maxRetries pause shutdown fs0 task).paused
          = false →
      completionEvents
          (ProcessTransferTask md5 maxRetries pause shutdown fs0 task).events
          = [Ev.completion
              (ProcessTransferTask md5 maxRetries pause shutdown fs0 task).success
              (ProcessTransferTask md5 maxRetries pause shutdown fs0
                task).errorMessage]
      ∧ ((ProcessTransferTask md5 maxRetries pause shutdown fs0 task).success
            = true ↔
          (ProcessTransferTask md5 maxRetries pause shutdown fs0 task).status
            = TransferStatus.COMPLETED)) := by
  obtain ⟨e1, e2⟩ := chunkLoop_events_classes md5 maxRetries task.sourcePath
    task.destPath pause shutdown task.chunks fs0 0 task.transferredBytes
  exact finishRun_callback_spec md5 task _ e1 e2

/-- Witness for `C7_pause_no_callback_terminal_once`: a run paused at the
first boundary fires no callback; the same run without pause fires exactly
one. -/
theorem C7_witness :
    completionEvents (ProcessTransferTask md5z 0 (fun _ => true)
        (fun _ => false) fs6 task6).events = []
    ∧ completionEvents (ProcessTransferTask md5z 0 (fun _ => false)
        (fun _ => false) fs6 task6).events
        = [Ev.completion
            (ProcessTransferTask md5z 0 (fun _ => false) (fun _ => false) fs6
              task6).success
            (ProcessTransferTask md5z 0 (fun _ => false) (fun _ => false) fs6
              task6).errorMessage] :=
  ⟨((C7_pause_no_callback_terminal_once md5z 0 (fun _ => true)
      (fun _ => false) fs6 task6).1 (by decide)).2.2.2.1,
    ((C7_pause_no_callback_terminal_once md5z 0 (fun _ => false)
      (fun _ => false) fs6 task6).2 (by decide)).1⟩

/-! ## Claim C3: the store records chunk COMPLETED before verification -/

theorem TransferChunk_ok_events (sourcePath destPath : String) (fs : FS)
    (c : ExtendedChunkInfo) :
    ((TransferChunk sourcePath destPath fs c).ok = true →
      (TransferChunk sourcePath destPath fs c).events
        = [Ev.chunkStatus c.chunkIndex ChunkStatus.COMPLETED])
    ∧ ((TransferChunk sourcePath destPath fs c).ok = false →
      (TransferChunk sourcePath destPath fs c).events = []) := by
  unfold TransferChunk
  rcases hread : fsRead fs sourcePath with _ | content
  · simp
  · simp only
    split
    · simp
    · simp

/-- The event trace of one attempt (copy, then verify): when the copy
succeeds, the durable COMPLETED chunk write precedes the verification call;
a failed verification is followed by a durable FAILED chunk write. -/
theorem attemptChunk_events_char (md5 : Content → String)
    (sourcePath destPath : String) (fs : FS) (c : ExtendedChunkInfo) :
    ((TransferChunk sourcePath destPath fs c).ok = true →
      (attemptChunk md5 sourcePath destPath fs c).events
        = Ev.chunkStatus c.chunkIndex ChunkStatus.COMPLETED
          :: Ev.verifyChunk c.chunkIndex
              (VerifyChunk md5 destPath
                (TransferChunk sourcePath destPath fs c).fs
                (TransferChunk sourcePath destPath fs c).chunk)
          :: (if VerifyChunk md5 destPath
                (TransferChunk sourcePath destPath fs c).fs
                (TransferChunk sourcePath destPath fs c).chunk then []
              else [Ev.chunkStatus c.chunkIndex ChunkStatus.FAILED]))
    ∧ ((TransferChunk sourcePath destPath fs c).ok = false →
      (attemptChunk md5 sourcePath destPath fs c).events
        = [Ev.chunkStatus c.chunkIndex ChunkStatus.FAILED]) := by
  constructor
  · intro ht
    have hev := (TransferChunk_ok_events sourcePath destPath fs c).1 ht
    by_cases hv : VerifyChunk md5 destPath
        (TransferChunk sourcePath destPath fs c).fs
        (TransferChunk sourcePath destPath fs c).chunk
    · simp [attemptChunk, ht, hv, hev]
    · simp [attemptChunk, ht, hv, hev]
  · intro ht
    have hev := (TransferChunk_ok_events sourcePath destPath fs c).2 ht
    simp [attemptChunk, ht, hev]

/-- Claim C3 counterexample.  A chunk whose copy succeeds but whose digest
does not match: the durable store receives a COMPLETED write for the chunk,
then verification runs and fails (so verification never passed), and the
chunk is re-marked FAILED.  The store therefore does record COMPLETED for a
chunk whose verification has not passed. -/
theorem C3_counterexample :
    Ev.chunkStatus 0 ChunkStatus.COMPLETED
        ∈ (attemptChunk md5z "s" "d" fs6 c6Chunk).events
    ∧ VerifyChunk md5z "d" (TransferChunk "s" "d" fs6 c6Chunk).fs
        (TransferChunk "s" "d" fs6 c6Chunk).chunk = false
    ∧ (attemptChunk md5z "s" "d" fs6 c6Chunk).ok = false
    ∧ (attemptChunk md5z "s" "d" fs6 c6Chunk).events
        = [Ev.chunkStatus 0 ChunkStatus.COMPLETED, Ev.verifyChunk 0 false,
           Ev.chunkStatus 0 ChunkStatus.FAILED] := by
  refine ⟨by decide, by decide, by decide, by decide⟩

/-- Claim C3 (amended).  The chunk is marked COMPLETED in the durable store
as soon as the copy of `actual_size` bytes completes — inside
`TransferChunk`, before MD5 verification; `VerifyChunk` runs afterwards, and
on a verification failure the chunk is subsequently re-marked FAILED (and no
COMPLETED write happens when the copy itself fails). -/
theorem C3_amended_completed_write_precedes_verify (md5 : Content → String)
    (sourcePath destPath : String) (fs : FS) (c : ExtendedChunkInfo) :
    ((TransferChunk sourcePath destPath fs c).ok = true →
      (attemptChunk md5 sourcePath destPath fs c).events
        = Ev.chunkStatus c.chunkIndex ChunkStatus.COMPLETED
          :: Ev.verifyChunk c.chunkIndex
              (VerifyChunk md5 destPath
                (TransferChunk sourcePath destPath fs c).fs
                (TransferChunk sourcePath destPath fs c).chunk)
          :: (if VerifyChunk md5 destPath
                (TransferChunk sourcePath destPath fs c).fs
                (TransferChunk sourcePath destPath fs c).chunk then []
              else [Ev.chunkStatus c.chunkIndex ChunkStatus.FAILED]))
    ∧ ((TransferChunk sourcePath destPath fs c).ok = false →
      (attemptChunk md5 sourcePath destPath fs c).events
        = [Ev.chunkStatus c.chunkIndex ChunkStatus.FAILED]) :=
  attemptChunk_events_char md5 sourcePath destPath fs c

/-- Witness for `C3_amended_completed_write_precedes_verify` on the failing
chunk `c6Chunk`. -/
theorem C3_amended_witness :
    (TransferChunk "s" "d" fs6 c6Chunk).ok = true
    ∧ (attemptChunk md5z "s" "d" fs6 c6Chunk).events
        = Ev.chunkStatus c6Chunk.chunkIndex ChunkStatus.COMPLETED
          :: Ev.verifyChunk c6Chunk.chunkIndex
              (VerifyChunk md5z "d" (TransferChunk "s" "d" fs6 c6Chunk).fs
                (TransferChunk "s" "d" fs6 c6Chunk).chunk)
          :: (if VerifyChunk md5z "d" (TransferChunk "s" "d" fs6 c6Chunk).fs
                (TransferChunk "s" "d" fs6 c6Chunk).chunk then []
              else [Ev.chunkStatus c6Chunk.chunkIndex ChunkStatus.FAILED]) :=
  ⟨by decide, (C3_amended_completed_write_precedes_verify md5z "s" "d" fs6
    c6Chunk).1 (by decide)⟩

/-! ## Claim C9: `enable_integrity_check` is never consulted -/

/-- Source `ConfigManager::DockTransferConfig` (from `config_manager.h`), with the
C++ `int` fields as `Nat` (they are counts/sizes). -/
structure DockTransferConfig where
  database_path : String
  enable_wal_mode : Bool
  connection_timeout_seconds : Nat
  max_retries : Nat
  backup_interval_hours : Nat
  cleanup_old_records_days : Nat
  chunk_size_mb : Nat
  max_concurrent_chunks : Nat
  retry_attempts : Nat
  retry_delay_seconds : Nat
  heartbeat_interval_seconds : Nat
  zombie_task_timeout_minutes : Nat
  enable_integrity_check : Bool
  temp_chunk_prefix : String
  max_concurrent_transfers : Nat
  bandwidth_limit_mbps : Nat
  enable_compression : Bool
  buffer_size_kb : Nat
  sync_frequency_seconds : Nat
  enable_progress_tracking : Bool
  progress_report_interval_seconds : Nat
  enable_speed_calculation : Bool
  enable_eta_calculation : Bool
  log_level : String
deriving DecidableEq, Repr

/-- The in-struct default values of `DockTransferConfig` (`loadConfig` never
parses the `dock_transfer` section, so these defaults are what the engine
sees). -/
def defaultDockTransferConfig : DockTransferConfig :=
  { database_path := "/data/temp/dji/dock_transfer_status.db",
    enable_wal_mode := true, connection_timeout_seconds := 30,
    max_retries := 3, backup_interval_hours := 24,
    cleanup_old_records_days := 30, chunk_size_mb := 10,
    max_concurrent_chunks := 3, retry_attempts := 5,
    retry_delay_seconds := 2, heartbeat_interval_seconds := 30,
    zombie_task_timeout_minutes := 60, enable_integrity_check := true,
    temp_chunk_prefix := ".chunk_", max_concurrent_transfers := 2,
    bandwidth_limit_mbps := 0, enable_compression := false,
    buffer_size_kb := 64, sync_frequency_seconds := 5,
    enable_progress_tracking := true,
    progress_report_interval_seconds := 10,
    enable_speed_calculation := true, enable_eta_calculation := true,
    log_level := "INFO" }

/-- The manager parameters set by
`ChunkTransferManager::LoadConfiguration`. -/
structure MgrConfig where
  chunkSize : Nat
  maxConcurrentTransfers : Nat
  workerThreadCount : Nat
  timeoutSeconds : Nat
  maxRetries : Nat
deriving DecidableEq, Repr

/-- Source `LoadConfiguration` reads `chunk_size_mb`, `max_concurrent_transfers` and
`retry_attempts` from the config (worker count and timeout are hard-coded);
it does not read `enable_integrity_check`. -/
def LoadConfiguration (cfg : DockTransferConfig) : MgrConfig :=
  { chunkSize := cfg.chunk_size_mb * 1024 * 1024,
    maxConcurrentTransfers := cfg.max_concurrent_transfers,
    workerThreadCount := 4,
    timeoutSeconds := 300,
    maxRetries := cfg.retry_attempts }

/-- Flip only the `enable_integrity_check` option. -/
def setIntegrityCheck (cfg : DockTransferConfig) (b : Bool) :
    DockTransferConfig :=
  { cfg with enable_integrity_check := b }

/-- A task run under a given configuration: the runner consumes only
`max_retries` from the loaded configuration. -/
def runTaskWithConfig (md5 : Content → String) (cfg : DockTransferConfig)
    (pause shutdown : Nat → Bool) (fs0 : FS) (task : TransferTaskInfo) :
    RunResult :=
  ProcessTransferTask md5 (LoadConfiguration cfg).maxRetries pause shutdown
    fs0 task

theorem finishRun_completed_verifyFinal (md5 : Content → String)
    (task : TransferTaskInfo) (L : LoopOut)
    (h : (finishRun md5 task L).status = TransferStatus.COMPLETED) :
    Ev.verifyFinal true ∈ (finishRun md5 task L).events := by
  by_cases hp : L.paused
  · simp [finishRun, hp] at h
  · by_cases hok : L.ok
    · by_cases hm : (MergeChunks task.destPath L.chunks L.fs).2
      · by_cases hv : VerifyFinalFile md5 task
            (MergeChunks task.destPath L.chunks L.fs).1
        · simp [finishRun, hp, hok, hm, hv]
        · simp [finishRun, hp, hok, hm, hv] at h
      · simp [finishRun, hp, hok, hm] at h
    · simp [finishRun, hp, hok] at h

/-- Claim C9 (amended).  `enable_integrity_check` is declared (default
`true`) but never consulted: changing it changes neither the loaded
configuration nor any run, and both per-chunk verification (after every
successful copy) and whole-file verification (on every run that completes)
are always performed. -/
theorem C9_amended_integrity_flag_ignored (md5 : Content → String)
    (cfg : DockTransferConfig) (b : Bool) (pause shutdown : Nat → Bool)
    (fs0 : FS) (task : TransferTaskInfo) :
    LoadConfiguration (setIntegrityCheck cfg b) = LoadConfiguration cfg
    ∧ runTaskWithConfig md5 (setIntegrityCheck cfg b) pause shutdown fs0 task
        = runTaskWithConfig md5 cfg pause shutdown fs0 task
    ∧ (∀ (fs : FS) (c : ExtendedChunkInfo),
        (TransferChunk task.sourcePath task.destPath fs c).ok = true →
        Ev.verifyChunk c.chunkIndex
            (VerifyChunk md5 task.destPath
              (TransferChunk task.sourcePath task.destPath fs c).fs
              (TransferChunk task.sourcePath task.destPath fs c).chunk)
          ∈ (attemptChunk md5 task.sourcePath task.destPath fs c).events)
    ∧ ((runTaskWithConfig md5 cfg pause shutdown fs0 task).status
          = TransferStatus.COMPLETED →
        Ev.verifyFinal true
          ∈ (runTaskWithConfig md5 cfg pause shutdown fs0 task).events) := by
  refine ⟨rfl, rfl, ?_, ?_⟩
  · intro fs c ht
    rw [(attemptChunk_events_char md5 task.sourcePath task.destPath fs c).1 ht]
    simp
  · intro h
    exact finishRun_completed_verifyFinal md5 task _ h

/-- The default configuration with `enable_integrity_check` switched off. -/
def cfg9 : DockTransferConfig := setIntegrityCheck defaultDockTransferConfig false

/-- Claim C9 counterexample.  With `enable_integrity_check = false`, chunk
verification is still performed and still fails the always-mismatching chunk
(so the task ends FAILED instead of skipping verification), and a run that
completes still performs the whole-file verification. -/
theorem C9_counterexample :
    cfg9.enable_integrity_check = false
    ∧ Ev.verifyChunk 0 false
        ∈ (runTaskWithConfig md5z cfg9 (fun _ => false) (fun _ => false) fs6
            task6).events
    ∧ (runTaskWithConfig md5z cfg9 (fun _ => false) (fun _ => false) fs6
        task6).status = TransferStatus.FAILED
    ∧ Ev.verifyFinal true
        ∈ (runTaskWithConfig md5z cfg9 (fun _ => false) (fun _ => false) fs1w
            task1w).events
    ∧ (runTaskWithConfig md5z cfg9 (fun _ => false) (fun _ => false) fs1w
        task1w).status = TransferStatus.COMPLETED := by
  refine ⟨by decide, by decide, by decide, by decide, by decide⟩

/-- Witness for `C9_amended_integrity_flag_ignored` at the default
configuration and a completing run. -/
theorem C9_amended_witness :
    (TransferChunk task1w.sourcePath task1w.destPath fs1w c6Chunk).ok = true
    ∧ (runTaskWithConfig md5z defaultDockTransferConfig (fun _ => false)
        (fun _ => false) fs1w task1w).status = TransferStatus.COMPLETED
    ∧ Ev.verifyChunk c6Chunk.chunkIndex
        (VerifyChunk md5z task1w.destPath
          (TransferChunk task1w.sourcePath task1w.destPath fs1w c6Chunk).fs
          (TransferChunk task1w.sourcePath task1w.destPath fs1w c6Chunk).chunk)
        ∈ (attemptChunk md5z task1w.sourcePath task1w.destPath fs1w
            c6Chunk).events
    ∧ Ev.verifyFinal true
        ∈ (runTaskWithConfig md5z defaultDockTransferConfig (fun _ => false)
            (fun _ => false) fs1w task1w).events :=
  ⟨by decide, by decide,
    (C9_amended_integrity_flag_ignored md5z defaultDockTransferConfig false
      (fun _ => false) (fun _ => false) fs1w task1w).2.2.1 fs1w c6Chunk
      (by decide),
    (C9_amended_integrity_flag_ignored md5z defaultDockTransferConfig false
      (fun _ => false) (fun _ => false) fs1w task1w).2.2.2 (by decide)⟩

/-! ## Claim C5: journaling pragmas and busy-retry of the two stores

`sqlite3_exec` outcomes are abstracted by an oracle `attempt : Nat →
SqlResult` giving the result of the n-th execution attempt of one
statement. -/

inductive SqlResult
  | ok
  | busy
  | locked
  | err
deriving DecidableEq, Repr

namespace TransferStatusDB

/-- The PRAGMA statements executed by `TransferStatusDB::Initialize` (the
remaining statements are CREATE TABLE / CREATE INDEX DDL, which configure no
journaling): only `foreign_keys` is set — no `journal_mode = WAL`, no
`synchronous = NORMAL`, no busy timeout. -/
def initPragmas : List String := ["PRAGMA foreign_keys = ON;"]

/-- Source `TransferStatusDB::ExecuteSQL`: a single `sqlite3_exec`; any non-OK
result (including `SQLITE_BUSY` / `SQLITE_LOCKED`) fails immediately, with
no retry. -/
def ExecuteSQL (attempt : Nat → SqlResult) : Bool :=
  attempt 0 == SqlResult.ok

end TransferStatusDB

namespace MediaStatusDB

/-- The PRAGMA statements executed by `MediaStatusDB::Initialize`
(`foreign_keys`, WAL journaling, `synchronous = NORMAL`, cache size; it also
sets `sqlite3_busy_timeout`). -/
def initPragmas : List String :=
  ["PRAGMA foreign_keys = ON;", "PRAGMA journal_mode = WAL;",
   "PRAGMA synchronous = NORMAL;", "PRAGMA cache_size = 10000;"]

/-- Result of `ExecuteSQLWithRetry`: outcome, number of `sqlite3_exec`
attempts made, and the sleeps (seconds) taken between attempts. -/
structure ExecOut where
  ok : Bool
  attempts : Nat
  sleeps : List Nat
deriving DecidableEq, Repr

/-- Source `MediaStatusDB::ExecuteSQLWithRetry(sql, retry_count)`: on
`SQLITE_BUSY`/`SQLITE_LOCKED` with `retry_count < max_retry_attempts_`,
sleep `retry_delay_seconds_` and recurse with `retry_count + 1`; any other
failure, or an exhausted budget, fails.  The recursion depth is bounded by
`max_retry_attempts + 1`, which is the fuel used here. -/
def ExecuteSQLWithRetry (maxRetryAttempts retryDelaySeconds : Nat)
    (attempt : Nat → SqlResult) : Nat → Nat → ExecOut
  | 0, _ => { ok := false, attempts := 0, sleeps := [] }
  | fuel + 1, k =>
    match attempt k with
    | SqlResult.ok => { ok := true, attempts := 1, sleeps := [] }
    | SqlResult.busy =>
      if k < maxRetryAttempts then
        { ok := (ExecuteSQLWithRetry maxRetryAttempts retryDelaySeconds
            attempt fuel (k + 1)).ok,
          attempts := (ExecuteSQLWithRetry maxRetryAttempts retryDelaySeconds
            attempt fuel (k + 1)).attempts + 1,
          sleeps := retryDelaySeconds :: (ExecuteSQLWithRetry maxRetryAttempts
            retryDelaySeconds attempt fuel (k + 1)).sleeps }
      else { ok := false, attempts := 1, sleeps := [] }
    | SqlResult.locked =>
      if k < maxRetryAttempts then
        { ok := (ExecuteSQLWithRetry maxRetryAttempts retryDelaySeconds
            attempt fuel (k + 1)).ok,
          attempts := (ExecuteSQLWithRetry maxRetryAttempts retryDelaySeconds
            attempt fuel (k + 1)).attempts + 1,
          sleeps := retryDelaySeconds :: (ExecuteSQLWithRetry maxRetryAttempts
            retryDelaySeconds attempt fuel (k + 1)).sleeps }
      else { ok := false, attempts := 1, sleeps := [] }
    | SqlResult.err => { ok := false, attempts := 1, sleeps := [] }

/-- Source `MediaStatusDB::ExecuteSQL` starts the retry chain at `retry_count = 0`. -/
def ExecuteSQL (maxRetryAttempts retryDelaySeconds : Nat)
    (attempt : Nat → SqlResult) : ExecOut :=
  ExecuteSQLWithRetry maxRetryAttempts retryDelaySeconds attempt
    (maxRetryAttempts + 1) 0

theorem ExecuteSQLWithRetry_attempts_le (m d : Nat)
    (attempt : Nat → SqlResult) :
    ∀ (fuel k : Nat),
      (ExecuteSQLWithRetry m d attempt fuel k).attempts ≤ fuel := by
  intro fuel
  induction fuel with
  | zero => intro k; simp [ExecuteSQLWithRetry]
  | succ fuel ih =>
    intro k
    simp only [ExecuteSQLWithRetry]
    rcases attempt k with _ | _ | _ | _ <;> simp
    · split
      · simp
        exact ih (k + 1)
      · simp
    · split
      · simp
        exact ih (k + 1)
      · simp

theorem ExecuteSQLWithRetry_sleeps_const (m d : Nat)
    (attempt : Nat → SqlResult) :
    ∀ (fuel k : Nat),
      ∀ s ∈ (ExecuteSQLWithRetry m d attempt fuel k).sleeps, s = d := by
  intro fuel
  induction fuel with
  | zero => intro k s hs; simp [ExecuteSQLWithRetry] at hs
  | succ fuel ih =>
    intro k s hs
    simp only [ExecuteSQLWithRetry] at hs
    rcases hA : attempt k with _ | _ | _ | _
    all_goals rw [hA] at hs
    · simp at hs
    · by_cases hk : k < m
      · simp [hk] at hs
        rcases hs with hs | hs
        · exact hs
        · exact ih (k + 1) s hs
      · simp [hk] at hs
    · by_cases hk : k < m
      · simp [hk] at hs
        rcases hs with hs | hs
        · exact hs
        · exact ih (k + 1) s hs
      · simp [hk] at hs
    · simp at hs

theorem ExecuteSQLWithRetry_ok_of_eventually (m d : Nat)
    (attempt : Nat → SqlResult) :
    ∀ (fuel k j : Nat), k ≤ j → j ≤ m → j < k + fuel →
      (∀ i, k ≤ i → i < j →
        attempt i = SqlResult.busy ∨ attempt i = SqlResult.locked) →
      attempt j = SqlResult.ok →
      (ExecuteSQLWithRetry m d attempt fuel k).ok = true := by
  intro fuel
  induction fuel with
  | zero => intro k j h1 h2 h3 _ _; omega
  | succ fuel ih =>
    intro k j h1 h2 h3 hbusy hok
    by_cases hkj : k = j
    · subst hkj
      simp [ExecuteSQLWithRetry, hok]
    · have hklt : k < j := by omega
      have hkm : k < m := by omega
      have hbk := hbusy k (by omega) hklt
      have hrec := ih (k + 1) j (by omega) h2 (by omega)
        (fun i hi1 hi2 => hbusy i (by omega) hi2) hok
      rcases hbk with hbk | hbk
      · simp [ExecuteSQLWithRetry, hbk, if_pos hkm, hrec]
      · simp [ExecuteSQLWithRetry, hbk, if_pos hkm, hrec]

end MediaStatusDB

/-- The contention pattern used for the C5 theorems: the first attempt hits
`SQLITE_BUSY`, the next succeeds. -/
def busyThenOk : Nat → SqlResult :=
  fun n => if n = 0 then SqlResult.busy else SqlResult.ok

/-- Claim C5 counterexample.  The transfer engine's own status store
(`TransferStatusDB`) sets neither write-ahead journaling nor
`synchronous=NORMAL` at initialization, and its `ExecuteSQL` fails
immediately on a busy result that a single retry would have absorbed (the
retry-on-busy machinery exists only in `MediaStatusDB`). -/
theorem C5_counterexample :
    TransferStatusDB.ExecuteSQL busyThenOk = false
    ∧ (MediaStatusDB.ExecuteSQL 3 1 busyThenOk).ok = true
    ∧ "PRAGMA journal_mode = WAL;" ∉ TransferStatusDB.initPragmas
    ∧ "PRAGMA synchronous = NORMAL;" ∉ TransferStatusDB.initPragmas
    ∧ "PRAGMA journal_mode = WAL;" ∈ MediaStatusDB.initPragmas := by
  refine ⟨by decide, by decide, by decide, by decide, by decide⟩

/-- Claim C5 (amended).  WAL journaling with `synchronous=NORMAL` and
bounded busy/locked retry with a fixed delay are properties of
`MediaStatusDB` (the media-transfer status store): its writes make at most
`max_retry_attempts + 1` attempts, sleep exactly `retry_delay_seconds`
between attempts, and succeed whenever some attempt within the budget
returns OK after only busy/locked results.  The transfer engine's own
status store, `TransferStatusDB`, executes each statement exactly once with
no WAL/synchronous pragmas and no retry. -/
theorem C5_amended_store_journaling_and_retry (m d : Nat)
    (attempt : Nat → SqlResult) :
    "PRAGMA journal_mode = WAL;" ∈ MediaStatusDB.initPragmas
    ∧ "PRAGMA synchronous = NORMAL;" ∈ MediaStatusDB.initPragmas
    ∧ "PRAGMA journal_mode = WAL;" ∉ TransferStatusDB.initPragmas
    ∧ "PRAGMA synchronous = NORMAL;" ∉ TransferStatusDB.initPragmas
    ∧ (MediaStatusDB.ExecuteSQL m d attempt).attempts ≤ m + 1
    ∧ (∀ s ∈ (MediaStatusDB.ExecuteSQL m d attempt).sleeps, s = d)
    ∧ (∀ j, j ≤ m →
        (∀ i, i < j →
          attempt i = SqlResult.busy ∨ attempt i = SqlResult.locked) →
        attempt j = SqlResult.ok →
        (MediaStatusDB.ExecuteSQL m d attempt).ok = true)
    ∧ (TransferStatusDB.ExecuteSQL attempt = true ↔
        attempt 0 = SqlResult.ok) := by
  refine ⟨by decide, by decide, by decide, by decide,
    MediaStatusDB.ExecuteSQLWithRetry_attempts_le m d attempt (m + 1) 0,
    MediaStatusDB.ExecuteSQLWithRetry_sleeps_const m d attempt (m + 1) 0,
    ?_, ?_⟩
  · intro j hj hbusy hok
    exact MediaStatusDB.ExecuteSQLWithRetry_ok_of_eventually m d attempt
      (m + 1) 0 j (by omega) hj (by omega)
      (fun i _ hi2 => hbusy i hi2) hok
  · constructor
    · intro h
      simpa [TransferStatusDB.ExecuteSQL] using h
    · intro h
      simp [TransferStatusDB.ExecuteSQL, h]

/-- Witness for `C5_amended_store_journaling_and_retry` at
`max_retry_attempts = 3`, `retry_delay_seconds = 1` and the busy-then-OK
oracle. -/
theorem C5_amended_witness :
    (1 ≤ 3 ∧ (∀ i, i < 1 → busyThenOk i = SqlResult.busy
        ∨ busyThenOk i = SqlResult.locked) ∧ busyThenOk 1 = SqlResult.ok)
    ∧ (MediaStatusDB.ExecuteSQL 3 1 busyThenOk).ok = true
    ∧ (TransferStatusDB.ExecuteSQL busyThenOk = true ↔
        busyThenOk 0 = SqlResult.ok) :=
  ⟨⟨by decide, by decide, by decide⟩,
    (C5_amended_store_journaling_and_retry 3 1 busyThenOk).2.2.2.2.2.2.1 1
      (by decide) (by decide) (by decide),
    (C5_amended_store_journaling_and_retry 3 1 busyThenOk).2.2.2.2.2.2.2⟩

/-! ## Facade model (claims C8, C10)

The facade state: the `initialized_` and `shutdown_flag_` atomics, the
`transfer_tasks_` map (association list), the `task_queue_` FIFO and the
durable writes issued through the store.  Callback values, worker/heartbeat
threads and the mutexes guarding the map and queue are not part of the
sequential model. -/

/-- One durable write issued by the facade's `UpdateTaskStatus`. -/
inductive DbWrite
  | updateTransferStatus (dbTaskId : Int) (s : TransferStatus)
  | updateTransferHeartbeat (dbTaskId : Int)
deriving DecidableEq, Repr

/-- The per-task fields the facade operations read or write. -/
structure FacadeTask where
  dbTaskId : Int
  status : TransferStatus
  fileSize : Nat
  transferredBytes : Nat
deriving DecidableEq, Repr

structure MgrState where
  initialized : Bool
  shutdownFlag : Bool
  tasks : List (String × FacadeTask)
  queue : List String
  dbLog : List DbWrite
deriving DecidableEq, Repr

def lookupTask : List (String × FacadeTask) → String → Option FacadeTask
  | [], _ => none
  | (i, t) :: rest, taskId =>
    if i = taskId then some t else lookupTask rest taskId

def setTaskStatus :
    List (String × FacadeTask) → String → TransferStatus →
      List (String × FacadeTask)
  | [], _, _ => []
  | (i, t) :: rest, taskId, s =>
    if i = taskId then (i, { t with status := s }) :: rest
    else (i, t) :: setTaskStatus rest taskId s

theorem lookupTask_setTaskStatus_self :
    ∀ (tasks : List (String × FacadeTask)) (taskId : String)
      (s : TransferStatus) (t : FacadeTask),
      lookupTask tasks taskId = some t →
      lookupTask (setTaskStatus tasks taskId s) taskId
        = some { t with status := s } := by
  intro tasks
  induction tasks with
  | nil => intro taskId s t h; simp [lookupTask] at h
  | cons hd rest ih =>
    intro taskId s t h
    obtain ⟨i, u⟩ := hd
    by_cases hi : i = taskId
    · simp [lookupTask, hi] at h
      subst h
      simp [setTaskStatus, lookupTask, hi]
    · simp [lookupTask, hi] at h
      simp [setTaskStatus, lookupTask, hi]
      exact ih taskId s t h

namespace ChunkTransferManager

/-- Source `ChunkTransferManager::UpdateTaskStatus`: look the task up; if present,
write status + heartbeat to the store (only when `db_task_id > 0`) and set
the in-memory status (`last_update` is a wall-clock timestamp, not
modeled). -/
def UpdateTaskStatus (st : MgrState) (taskId : String) (s : TransferStatus) :
    MgrState :=
  match lookupTask st.tasks taskId with
  | none => st
  | some t =>
    { st with
      tasks := setTaskStatus st.tasks taskId s
      dbLog :=
        if 0 < t.dbTaskId then
          st.dbLog ++ [DbWrite.updateTransferStatus t.dbTaskId s,
            DbWrite.updateTransferHeartbeat t.dbTaskId]
        else st.dbLog }

/-- Source `PauseTransfer`: membership test under the map lock, then (after
releasing it) `UpdateTaskStatus(task_id, PAUSED)`. -/
def PauseTransfer (st : MgrState) (taskId : String) : Bool × MgrState :=
  if (lookupTask st.tasks taskId).isSome then
    (true, UpdateTaskStatus st taskId TransferStatus.PAUSED)
  else (false, st)

/-- Source `CancelTransfer`: to support resumption, cancelling is "request pause":
membership test, then `UpdateTaskStatus(task_id, PAUSED)`. -/
def CancelTransfer (st : MgrState) (taskId : String) : Bool × MgrState :=
  if (lookupTask st.tasks taskId).isSome then
    (true, UpdateTaskStatus st taskId TransferStatus.PAUSED)
  else (false, st)

/-- Source `ResumeTransfer`: membership test, set DOWNLOADING, re-enqueue. -/
def ResumeTransfer (st : MgrState) (taskId : String) : Bool × MgrState :=
  if (lookupTask st.tasks taskId).isSome then
    (true,
      { UpdateTaskStatus st taskId TransferStatus.DOWNLOADING with
        queue := st.queue ++ [taskId] })
  else (false, st)

/-- Source `Initialize` (idempotent; database / config / recovery / worker and
heartbeat threads are outside this state model). -/
def Initialize (st : MgrState) : MgrState :=
  if st.initialized then st
  else { st with initialized := true, shutdownFlag := false }

/-- Source `Shutdown`: if initialized, set the shutdown flag, join the workers,
clear the task map and drain the queue, and mark uninitialized; otherwise a
no-op. -/
def Shutdown (st : MgrState) : MgrState :=
  if st.initialized then
    { st with
      shutdownFlag := true
      tasks := []
      queue := []
      initialized := false }
  else st

/-- Source `StartTransfer`: fails when not initialized or the source is missing; an
existing PAUSED task is re-enqueued (callbacks reattached); an existing
non-PAUSED task fails; otherwise the task is created (the store-assigned
`db_task_id` and the source's size are inputs here; planning is modeled
separately) and enqueued. -/
def StartTransfer (st : MgrState) (taskId : String) (sourceExists : Bool)
    (fileSize : Nat) (dbTaskId : Int) : Bool × MgrState :=
  if ¬ st.initialized then (false, st)
  else if ¬ sourceExists then (false, st)
  else
    match lookupTask st.tasks taskId with
    | some t =>
      if t.status = TransferStatus.PAUSED then
        (true, { st with queue := st.queue ++ [taskId] })
      else (false, st)
    | none =>
      (true,
        { st with
          tasks := st.tasks ++ [(taskId,
            { dbTaskId := dbTaskId, status := TransferStatus.PENDING,
              fileSize := fileSize, transferredBytes := 0 })]
          queue := st.queue ++ [taskId] })

/-- Source `GetTransferStatus`: FAILED when the task is unknown. -/
def GetTransferStatus (st : MgrState) (taskId : String) : TransferStatus :=
  match lookupTask st.tasks taskId with
  | some t => t.status
  | none => TransferStatus.FAILED

/-- Source `GetTransferProgress`: percentage (exact rational in place of the C++
`double`); 0 when the task is unknown or empty. -/
def GetTransferProgress (st : MgrState) (taskId : String) : ℚ :=
  match lookupTask st.tasks taskId with
  | some t =>
    if 0 < t.fileSize then
      (t.transferredBytes : ℚ) / (t.fileSize : ℚ) * 100
    else 0
  | none => 0

/-- Source `GetTransferInfo`: `some` info exactly when the C++ function returns
true and fills the out-parameter. -/
def GetTransferInfo (st : MgrState) (taskId : String) : Option FacadeTask :=
  lookupTask st.tasks taskId

end ChunkTransferManager

/-- The facade operations a caller can issue. -/
inductive MgrOp
  | opInit
  | opShutdown
  | opStart (taskId : String) (sourceExists : Bool) (fileSize : Nat)
      (dbTaskId : Int)
  | opPause (taskId : String)
  | opResume (taskId : String)
  | opCancel (taskId : String)

def applyOp (st : MgrState) : MgrOp → MgrState
  | MgrOp.opInit => ChunkTransferManager.Initialize st
  | MgrOp.opShutdown => ChunkTransferManager.Shutdown st
  | MgrOp.opStart taskId se fsz db =>
    (ChunkTransferManager.StartTransfer st taskId se fsz db).2
  | MgrOp.opPause taskId => (ChunkTransferManager.PauseTransfer st taskId).2
  | MgrOp.opResume taskId => (ChunkTransferManager.ResumeTransfer st taskId).2
  | MgrOp.opCancel taskId => (ChunkTransferManager.CancelTransfer st taskId).2

/-- The state of a freshly constructed manager. -/
def initialMgrState : MgrState :=
  { initialized := false, shutdownFlag := false, tasks := [], queue := [],
    dbLog := [] }

def runOps (ops : List MgrOp) : MgrState :=
  ops.foldl applyOp initialMgrState

/-- Reachable-state invariant: a non-initialized manager holds no tasks and
an empty queue (`StartTransfer` refuses before `Initialize`, and `Shutdown`
clears both). -/
def uninitEmpty (st : MgrState) : Prop :=
  st.initialized = false → st.tasks = [] ∧ st.queue = []

theorem applyOp_preserves_uninitEmpty (st : MgrState) (op : MgrOp)
    (h : uninitEmpty st) : uninitEmpty (applyOp st op) := by
  cases op with
  | opInit =>
    intro hinit
    by_cases hi : st.initialized
    · simp only [applyOp, ChunkTransferManager.Initialize, if_pos hi] at hinit ⊢
      exact h hinit
    · simp [applyOp, ChunkTransferManager.Initialize, hi] at hinit
  | opShutdown =>
    intro hinit
    by_cases hi : st.initialized
    · simp [applyOp, ChunkTransferManager.Shutdown, hi]
    · simp only [applyOp, ChunkTransferManager.Shutdown, if_neg hi] at hinit ⊢
      exact h hinit
  | opStart taskId se fsz db =>
    intro hinit
    by_cases hi : st.initialized
    · exfalso
      revert hinit
      simp only [applyOp, ChunkTransferManager.StartTransfer, if_neg
        (by simp [hi] : ¬ ¬ st.initialized = true)]
      by_cases hse : se
      · simp only [if_neg (by simp [hse] : ¬ ¬ se = true)]
        rcases lookupTask st.tasks taskId with _ | t
        · simp [hi]
        · by_cases hts : t.status = TransferStatus.PAUSED <;> simp [hts, hi]
      · simp [hse, hi]
    · simp only [applyOp, ChunkTransferManager.StartTransfer,
        if_pos (by simp [hi] : ¬ st.initialized = true)] at hinit ⊢
      exact h hinit
  | opPause taskId =>
    intro hinit
    by_cases hi : st.initialized
    · by_cases hl : (lookupTask st.tasks taskId).isSome
      · exfalso
        revert hinit
        simp only [applyOp, ChunkTransferManager.PauseTransfer, if_pos hl,
          ChunkTransferManager.UpdateTaskStatus]
        rcases lookupTask st.tasks taskId with _ | t <;> simp [hi]
      · simp only [applyOp, ChunkTransferManager.PauseTransfer,
          if_neg hl] at hinit ⊢
        exact h hinit
    · have hempty := h (by simpa using hi)
      have hl : lookupTask st.tasks taskId = none := by
        rw [hempty.1]; rfl
      simp only [applyOp, ChunkTransferManager.PauseTransfer, hl] at hinit ⊢
      simp at hinit ⊢
      exact hempty
  | opResume taskId =>
    intro hinit
    by_cases hi : st.initialized
    · by_cases hl : (lookupTask st.tasks taskId).isSome
      · exfalso
        revert hinit
        simp only [applyOp, ChunkTransferManager.ResumeTransfer, if_pos hl,
          ChunkTransferManager.UpdateTaskStatus]
        rcases lookupTask st.tasks taskId with _ | t <;> simp [hi]
      · simp only [applyOp, ChunkTransferManager.ResumeTransfer,
          if_neg hl] at hinit ⊢
        exact h hinit
    · have hempty := h (by simpa using hi)
      have hl : lookupTask st.tasks taskId = none := by
        rw [hempty.1]; rfl
      simp only [applyOp, ChunkTransferManager.ResumeTransfer, hl] at hinit ⊢
      simp at hinit ⊢
      exact hempty
  | opCancel taskId =>
    intro hinit
    by_cases hi : st.initialized
    · by_cases hl : (lookupTask st.tasks taskId).isSome
      · exfalso
        revert hinit
        simp only [applyOp, ChunkTransferManager.CancelTransfer, if_pos hl,
          ChunkTransferManager.UpdateTaskStatus]
        rcases lookupTask st.tasks taskId with _ | t <;> simp [hi]
      · simp only [applyOp, ChunkTransferManager.CancelTransfer,
          if_neg hl] at hinit ⊢
        exact h hinit
    · have hempty := h (by simpa using hi)
      have hl : lookupTask st.tasks taskId = none := by
        rw [hempty.1]; rfl
      simp only [applyOp, ChunkTransferManager.CancelTransfer, hl] at hinit ⊢
      simp at hinit ⊢
      exact hempty

theorem runOps_uninitEmpty (ops : List MgrOp) : uninitEmpty (runOps ops) := by
  have hgen : ∀ (l : List MgrOp) (st : MgrState), uninitEmpty st →
      uninitEmpty (l.foldl applyOp st) := by
    intro l
    induction l with
    | nil => intro st h; exact h
    | cons op rest ih =>
      intro st h
      exact ih (applyOp st op) (applyOp_preserves_uninitEmpty st op h)
  exact hgen ops initialMgrState (fun _ => ⟨rfl, rfl⟩)

/-- Claim C8.  `CancelTransfer` is semantically equivalent to
`PauseTransfer`: on every state and task id the two return identical
(boolean, state) results; when the task exists both report success and mark
it PAUSED (they touch neither the filesystem nor the chunk rows, so
progress, chunk statuses and temp artifacts are preserved); when it does
not, both fail leaving the state unchanged. -/
theorem C8_cancel_equals_pause (st : MgrState) (taskId : String) :
    ChunkTransferManager.CancelTransfer st taskId
        = ChunkTransferManager.PauseTransfer st taskId
    ∧ (∀ t, lookupTask st.tasks taskId = some t →
        (ChunkTransferManager.CancelTransfer st taskId).1 = true
        ∧ lookupTask (ChunkTransferManager.CancelTransfer st taskId).2.tasks
            taskId = some { t with status := TransferStatus.PAUSED })
    ∧ (lookupTask st.tasks taskId = none →
        ChunkTransferManager.CancelTransfer st taskId = (false, st)) := by
  refine ⟨rfl, ?_, ?_⟩
  · intro t ht
    have hsome : (lookupTask st.tasks taskId).isSome := by rw [ht]; rfl
    constructor
    · simp [ChunkTransferManager.CancelTransfer, hsome]
    · simp only [ChunkTransferManager.CancelTransfer, if_pos hsome,
        ChunkTransferManager.UpdateTaskStatus, ht]
      exact lookupTask_setTaskStatus_self st.tasks taskId
        TransferStatus.PAUSED t ht
  · intro hnone
    simp [ChunkTransferManager.CancelTransfer, hnone]

def task8 : FacadeTask :=
  { dbTaskId := 7, status := TransferStatus.DOWNLOADING, fileSize := 10,
    transferredBytes := 4 }

def st8 : MgrState :=
  { initialized := true, shutdownFlag := false, tasks := [("a", task8)],
    queue := [], dbLog := [] }

/-- Witness for `C8_cancel_equals_pause` on a one-task state. -/
theorem C8_cancel_equals_pause_witness :
    lookupTask st8.tasks "a" = some task8
    ∧ ChunkTransferManager.CancelTransfer st8 "a"
        = ChunkTransferManager.PauseTransfer st8 "a"
    ∧ (ChunkTransferManager.CancelTransfer st8 "a").1 = true
    ∧ lookupTask (ChunkTransferManager.CancelTransfer st8 "a").2.tasks "a"
        = some { task8 with status := TransferStatus.PAUSED } :=
  ⟨by decide, (C8_cancel_equals_pause st8 "a").1,
    ((C8_cancel_equals_pause st8 "a").2.1 task8 (by decide)).1,
    ((C8_cancel_equals_pause st8 "a").2.1 task8 (by decide)).2⟩

/-- Claim C10.  After `Shutdown()` returns — in any state the facade
operations can reach — the in-memory task map and the task queue are empty;
consequently `GetTransferStatus` returns FAILED, `GetTransferProgress`
returns 0, and `GetTransferInfo` returns false for every task id, while the
durable-store writes already issued are untouched. -/
theorem C10_shutdown_clears (ops : List MgrOp) (taskId : String) :
    (ChunkTransferManager.Shutdown (runOps ops)).tasks = []
    ∧ (ChunkTransferManager.Shutdown (runOps ops)).queue = []
    ∧ ChunkTransferManager.GetTransferStatus
        (ChunkTransferManager.Shutdown (runOps ops)) taskId
        = TransferStatus.FAILED
    ∧ ChunkTransferManager.GetTransferProgress
        (ChunkTransferManager.Shutdown (runOps ops)) taskId = 0
    ∧ ChunkTransferManager.GetTransferInfo
        (ChunkTransferManager.Shutdown (runOps ops)) taskId = none
    ∧ (ChunkTransferManager.Shutdown (runOps ops)).dbLog
        = (runOps ops).dbLog := by
  have hempty : (ChunkTransferManager.Shutdown (runOps ops)).tasks = []
      ∧ (ChunkTransferManager.Shutdown (runOps ops)).queue = [] := by
    by_cases hi : (runOps ops).initialized
    · simp [ChunkTransferManager.Shutdown, hi]
    · have := runOps_uninitEmpty ops (by simpa using hi)
      simp [ChunkTransferManager.Shutdown, hi, this.1, this.2]
  have hlook : lookupTask (ChunkTransferManager.Shutdown (runOps ops)).tasks
      taskId = none := by
    rw [hempty.1]; rfl
  refine ⟨hempty.1, hempty.2, ?_, ?_, ?_, ?_⟩
  · simp [ChunkTransferManager.GetTransferStatus, hlook]
  · simp [ChunkTransferManager.GetTransferProgress, hlook]
  · simp [ChunkTransferManager.GetTransferInfo, hlook]
  · by_cases hi : (runOps ops).initialized <;>
      simp [ChunkTransferManager.Shutdown, hi]
